import Mathlib

/-!
Verification of the configuration subsystem in `Methane_Model_config.py`
(class `ConfigUtils` and class `model_setup`).

Shallow embedding conventions:

* Python `str` is Lean `String`; string-building functions work on `List Char`
  and are wrapped into `String` at the boundary.
* Python `float` is modelled by `PyFloat`, an exact decimal fraction
  `sig / 10 ^ exp` kept in canonical form (no trailing decimal zeros).  The
  program never does float arithmetic: floats are only parsed from text,
  compared with `0`, tested with `is_integer`, and printed with `str`, all of
  which the decimal model reproduces exactly.  Binary rounding of IEEE
  doubles, `inf`/`nan` and underscore digit separators are outside the model.
* Python `int()` / `float()` parsing is modelled by `pyIntParse` /
  `pyFloatParse` (optional surrounding whitespace, optional sign, decimal
  digits, and for floats an optional fraction and exponent part).
* `pandas.to_datetime(s, errors="coerce")` is an external library call; it is
  modelled by `pd_to_datetime`, which accepts `A-B-YYYY` (month first, with
  day-first fallback when the first field exceeds 12, as dateutil does) and
  `YYYY-MM-DD`, with `-` or `/` separators, and returns `NaT` (never raises)
  on unparseable text.  `NaT` is truthy (pandas `NaTType` subclasses
  `datetime`, whose instances are always truthy), every ordering comparison
  involving `NaT` is `False`, and `NaT.strftime` raises `ValueError`.
* The interactive `input()` stream is a `List String`; a loop that consumes
  the whole list without returning is modelled as `Option.none`
  (the operator never completed the prompts).
* Writing the element tree to a file and parsing it back is modelled by
  `writeRead`, which is the identity except that a leaf whose text is the
  empty string is serialized as a self-closing tag and re-parsed with
  `text = None` (ElementTree behaviour).
-/

/-- Decimal digit characters, as tested by both `int()` and `float()`. -/
def isDigitCh (c : Char) : Bool := 48 ≤ c.toNat ∧ c.toNat ≤ 57

/-- Numeric value of a digit character. -/
def charVal (c : Char) : Nat := c.toNat - 48

/-- Digit character of a value below 10. -/
def digitChar (d : Nat) : Char := Char.ofNat (48 + d)

/-- Value of a most-significant-first digit string (Horner evaluation). -/
def parseNatDigits (cs : List Char) : Nat := cs.foldl (fun a c => 10 * a + charVal c) 0

/-- Little-endian decimal digits of `n`, with explicit fuel (so that the
definition is structurally recursive and kernel-reducible). -/
def natToDigitsAux : Nat → Nat → List Nat
  | 0, _ => []
  | f + 1, n => if n = 0 then [] else n % 10 :: natToDigitsAux f (n / 10)

/-- Little-endian decimal digits of `n` (empty for `0`). -/
def natDigitsLE (n : Nat) : List Nat := natToDigitsAux n n

/-- Most-significant-first digit characters of `n` (empty for `0`). -/
def natDigitsChars (n : Nat) : List Char := ((natDigitsLE n).map digitChar).reverse

/-- Decimal rendering of a natural number, as Python's `str` ("0" for zero). -/
def natStrL (n : Nat) : List Char := if n = 0 then ['0'] else natDigitsChars n

/-- Decimal rendering of an integer, as Python's `str`. -/
def intStrL (n : Int) : List Char := if n < 0 then '-' :: natStrL n.natAbs else natStrL n.natAbs

/-- Python `str` of an `int`. -/
def pyStrInt (n : Int) : String := ⟨intStrL n⟩

/-- Whitespace characters stripped by Python's `int()` / `float()` / `str.strip()`. -/
def isPyWS (c : Char) : Bool :=
  c = ' ' ∨ c = '\t' ∨ c = '\n' ∨ c = '\r' ∨ c = '\x0b' ∨ c = '\x0c'

/-- Strip leading and trailing whitespace from a character list. -/
def stripWS (cs : List Char) : List Char :=
  ((cs.dropWhile isPyWS).reverse.dropWhile isPyWS).reverse

/-- ASCII upper-casing of one character, as Python `str.upper` acts on ASCII. -/
def upperCh (c : Char) : Char :=
  if 97 ≤ c.toNat ∧ c.toNat ≤ 122 then Char.ofNat (c.toNat - 32) else c

/-- Python `str.upper` (the program only feeds it ASCII region codes). -/
def pyUpper (s : String) : String := ⟨s.data.map upperCh⟩

/-- Exact decimal fraction `sig / 10 ^ exp`: the model of a Python float as it
occurs in this program (parsed from decimal text, never arithmetically
combined). -/
structure PyFloat where
  sig : Int
  exp : Nat
deriving DecidableEq, Repr

/-- Strip trailing decimal zeros: divide the magnitude by 10 while the
exponent is positive and the magnitude is divisible by 10. -/
def stripTZ : Nat → Nat → Nat → Nat × Nat
  | 0, m, e => (m, e)
  | f + 1, m, e =>
    if e = 0 then (m, e)
    else if m % 10 = 0 then stripTZ f (m / 10) (e - 1)
    else (m, e)

/-- Build a canonical `PyFloat` from a sign, a magnitude and a decimal
exponent. -/
def PyFloat.make (neg : Bool) (m : Nat) (e : Nat) : PyFloat :=
  let p := stripTZ e m e
  ⟨if neg then -(p.1 : Int) else (p.1 : Int), p.2⟩

/-- Canonical form: either an integer value or a significand not divisible
by 10. -/
def PyFloat.canonical (x : PyFloat) : Bool := x.exp = 0 ∨ ¬ x.sig.natAbs % 10 = 0

/-- Python `float.is_integer` on a canonical value. -/
def PyFloat.isInteger (x : PyFloat) : Bool := x.exp = 0

/-- Rational value of a `PyFloat` (proof-side only). -/
def PyFloat.val (x : PyFloat) : Rat := (x.sig : Rat) / (10 : Rat) ^ x.exp

/-- Python `str` of a float value, as a character list: fixed-point decimal
with at least one fractional digit. -/
def pyFloatStrL (x : PyFloat) : List Char :=
  let m := x.sig.natAbs
  let sgn : List Char := if x.sig < 0 then ['-'] else []
  if x.exp = 0 then sgn ++ natStrL m ++ ['.', '0']
  else
    sgn ++ natStrL (m / 10 ^ x.exp) ++
      '.' :: (List.replicate (x.exp - (natDigitsChars (m % 10 ^ x.exp)).length) '0'
               ++ natDigitsChars (m % 10 ^ x.exp))

/-- Python `str` of a float. -/
def PyFloat.toStr (x : PyFloat) : String := ⟨pyFloatStrL x⟩

/-- Leading digit run and the remainder. -/
def spanDigits (cs : List Char) : List Char × List Char :=
  (cs.takeWhile isDigitCh, cs.dropWhile isDigitCh)

/-- Parse a nonempty all-digit run as an exponent magnitude. -/
def natExpPart (cs : List Char) : Option Int :=
  if cs ≠ [] ∧ cs.all isDigitCh then some (parseNatDigits cs) else Option.none

/-- Parse the optional exponent suffix of a float literal: nothing, or
`e`/`E`, an optional sign, and digits running to the end of the input. -/
def parseExpSuffix : List Char → Option Int
  | [] => some 0
  | c :: rest =>
    if c = 'e' ∨ c = 'E' then
      match rest with
      | '+' :: r => natExpPart r
      | '-' :: r => (natExpPart r).map (fun n => -n)
      | r => natExpPart r
    else Option.none

/-- Combine the parsed parts of a float literal: integer digits, fraction
digits (count and value) and exponent, into a canonical `PyFloat`. -/
def floatOfParts (neg : Bool) (ipN : Nat) (fl : Nat) (fpN : Nat) (e : Int) : PyFloat :=
  if 0 ≤ e - (fl : Int) then
    PyFloat.make neg ((ipN * 10 ^ fl + fpN) * 10 ^ (e - (fl : Int)).toNat) 0
  else PyFloat.make neg (ipN * 10 ^ fl + fpN) (-(e - (fl : Int))).toNat

/-- Parse an unsigned float literal body: `digits [. digits] [exp]` or
`. digits [exp]`. -/
def pyFloatCore (neg : Bool) (cs : List Char) : Option PyFloat :=
  if (spanDigits cs).2.head? = some '.' then
    if (spanDigits cs).1 = [] ∧ (spanDigits (spanDigits cs).2.tail).1 = [] then Option.none
    else (parseExpSuffix (spanDigits (spanDigits cs).2.tail).2).map
      (fun e => floatOfParts neg (parseNatDigits (spanDigits cs).1)
        (spanDigits (spanDigits cs).2.tail).1.length
        (parseNatDigits (spanDigits (spanDigits cs).2.tail).1) e)
  else
    if (spanDigits cs).1 = [] then Option.none
    else (parseExpSuffix (spanDigits cs).2).map
      (fun e => floatOfParts neg (parseNatDigits (spanDigits cs).1) 0 0 e)

/-- Model of Python `float(s)`: strip whitespace, take an optional sign, and
parse the literal body; `Option.none` models the `ValueError` path. -/
def pyFloatParse (s : String) : Option PyFloat :=
  if (stripWS s.data).head? = some '+' then pyFloatCore false (stripWS s.data).tail
  else if (stripWS s.data).head? = some '-' then pyFloatCore true (stripWS s.data).tail
  else pyFloatCore false (stripWS s.data)

/-- Parse a nonempty all-digit run as a natural number. -/
def pyNatParse (cs : List Char) : Option Nat :=
  if cs ≠ [] ∧ cs.all isDigitCh then some (parseNatDigits cs) else Option.none

/-- Model of Python `int(s)`: strip whitespace, take an optional sign, and
require decimal digits to the end; `Option.none` models the `ValueError`
path. -/
def pyIntParse (s : String) : Option Int :=
  if (stripWS s.data).head? = some '+' then (pyNatParse (stripWS s.data).tail).map Int.ofNat
  else if (stripWS s.data).head? = some '-' then
    (pyNatParse (stripWS s.data).tail).map (fun n => -(n : Int))
  else (pyNatParse (stripWS s.data)).map Int.ofNat


/-! Python values as they occur in the configuration dictionaries: scalars,
`None`, lists, and insertion-ordered string-keyed mappings.  A Python `dict`
is represented as its insertion-ordered key/value sequence; the program only
builds dictionaries with pairwise distinct keys. -/

mutual
inductive PyVal : Type where
  | str (s : String)
  | int (n : Int)
  | float (x : PyFloat)
  | none
  | list (xs : PyList)
  | dict (d : PyDict)
inductive PyList : Type where
  | nil
  | cons (v : PyVal) (tl : PyList)
inductive PyDict : Type where
  | nil
  | cons (k : String) (v : PyVal) (tl : PyDict)
end

/-- Test for the empty dictionary. -/
def PyDict.isNil : PyDict → Bool
  | .nil => true
  | .cons _ _ _ => false

/-- Key membership in a dictionary. -/
def keyMem (k : String) : PyDict → Bool
  | .nil => false
  | .cons k2 _ tl => k = k2 ∨ keyMem k tl

mutual
/-- Python `repr` of a value (string quoting simplified to plain single
quotes; the program never reprs strings containing quotes). -/
def pyRepr : PyVal → String
  | .str s => "'" ++ s ++ "'"
  | .int n => pyStrInt n
  | .float x => x.toStr
  | .none => "None"
  | .list xs => "[" ++ pyReprList xs ++ "]"
  | .dict d => "\x7b" ++ pyReprDict d ++ "\x7d"
/-- Comma-separated `repr`s of list elements. -/
def pyReprList : PyList → String
  | .nil => ""
  | .cons v .nil => pyRepr v
  | .cons v (PyList.cons w tl) => pyRepr v ++ ", " ++ pyReprList (PyList.cons w tl)
/-- Comma-separated `repr`s of dictionary items. -/
def pyReprDict : PyDict → String
  | .nil => ""
  | .cons k v .nil => "'" ++ k ++ "': " ++ pyRepr v
  | .cons k v (PyDict.cons k2 w tl) =>
      "'" ++ k ++ "': " ++ pyRepr v ++ ", " ++ pyReprDict (PyDict.cons k2 w tl)
end

/-- Python `str` of a value: strings unquoted, everything else as `repr`. -/
def pyStr : PyVal → String
  | .str s => s
  | v => pyRepr v

/-! The XML document model: `xml.etree.ElementTree` elements, with a tag, a
list of child elements and an optional text payload. -/

mutual
inductive XElem : Type where
  | mk (tag : String) (children : XList) (text : Option String)
inductive XList : Type where
  | nil
  | cons (e : XElem) (tl : XList)
end

/-- Tag of an element. -/
def XElem.tag : XElem → String
  | .mk t _ _ => t

/-- Children of an element. -/
def XElem.children : XElem → XList
  | .mk _ cs _ => cs

/-- Text of an element. -/
def XElem.text : XElem → Option String
  | .mk _ _ t => t

mutual
/-- The body of `ConfigUtils.dict_to_xml`'s inner `add_elements`: each key
becomes a subelement; a dict value recurses, any other value becomes the
element's text via `str`. -/
def add_elements : PyDict → XList
  | .nil => .nil
  | .cons k v tl => .cons (elementOf k v) (add_elements tl)
/-- One subelement built by `add_elements` for the pair `(k, v)`. -/
def elementOf (k : String) : PyVal → XElem
  | .dict d => .mk k (add_elements d) Option.none
  | v => .mk k .nil (some (pyStr v))
end

/-- The tree built by `ConfigUtils.dict_to_xml`: a root element named
`ModelConfiguration` whose children come from `add_elements` (the file
serialization itself is modelled by `writeRead` below). -/
def dict_to_xml (data : PyDict) : XElem :=
  .mk "ModelConfiguration" (add_elements data) Option.none

mutual
/-- Model of writing the tree with `tree.write` and re-reading it with
`ET.parse`: the round trip is the identity on tags and children, except that
a leaf with empty text serializes as a self-closing tag whose text re-parses
as `None`.  (`ET.indent` only adds whitespace around child elements, which
`recursive_parse` never reads.) -/
def writeRead : XElem → XElem
  | .mk t cs txt => .mk t (writeReadL cs) (if txt = some "" then Option.none else txt)
/-- Write/read round trip, mapped over a child list. -/
def writeReadL : XList → XList
  | .nil => .nil
  | .cons e tl => .cons (writeRead e) (writeReadL tl)
end

/-- Leaf handling of `recursive_parse`: try `float(child.text)`; on success an
integer-valued result is coerced with `int(...)`, otherwise the float is
kept; on `ValueError`/`TypeError` (unparseable text, or absent text) the
value is `child.text` itself. -/
def parseLeafText : Option String → PyVal
  | Option.none => PyVal.none
  | some t =>
    match pyFloatParse t with
    | some x => if x.exp = 0 then PyVal.int x.sig else PyVal.float x
    | Option.none => PyVal.str t

mutual
/-- The recursive parser inside `ConfigUtils.parse_xml_config`: children with
children recurse into nested dicts, childless children parse their text. -/
def recursive_parse : XElem → PyDict
  | .mk _ cs _ => parseChildren cs
/-- Dictionary built from a child list by `recursive_parse` (tags with
duplicate names would overwrite in the Python dict; the program only decodes
trees with distinct sibling tags). -/
def parseChildren : XList → PyDict
  | .nil => .nil
  | .cons (XElem.mk tag XList.nil txt) tl =>
      .cons tag (parseLeafText txt) (parseChildren tl)
  | .cons (XElem.mk tag (XList.cons c cs) _) tl =>
      .cons tag (PyVal.dict (parseChildren (XList.cons c cs))) (parseChildren tl)
end

/-- The first stage of `ConfigUtils.parse_xml_config`:
`dict_input = {root.tag: recursive_parse(root)}`. -/
def parse_root (root : XElem) : PyDict :=
  PyDict.cons root.tag (PyVal.dict (recursive_parse root)) PyDict.nil

/-- Decode after encode, through the file: the composition
`parse_xml_config ∘ write` restricted to its `dict_input` stage. -/
def roundTrip (d : PyDict) : PyDict := parse_root (writeRead (dict_to_xml d))

mutual
/-- The deviation the round-trip claim allows: float leaves with integer
value come back as `int`; everything else is unchanged. -/
def collapse : PyVal → PyVal
  | .float x => if x.exp = 0 then .int x.sig else .float x
  | .dict d => .dict (collapseDict d)
  | v => v
/-- Allowed deviation, mapped over a dictionary. -/
def collapseDict : PyDict → PyDict
  | .nil => .nil
  | .cons k v tl => .cons k (collapse v) (collapseDict tl)
end

mutual
/-- Domain of the round-trip claim: values of nesting depth at most `n + 1`
whose leaves are strings, ints or (canonical) floats, with distinct keys at
every level.  With `strict = false` this is the claim's own domain; with
`strict = true` it adds the conditions the code forces: string leaves must
not parse as floats and not be empty, and nested dicts must be nonempty. -/
def goodVal (strict : Bool) (n : Nat) : PyVal → Bool
  | .str s => !strict || ((pyFloatParse s).isNone && !(s = "" : Bool))
  | .int _ => true
  | .float x => x.canonical
  | .none => false
  | .list _ => false
  | .dict d => decide (0 < n) && (!strict || !d.isNil) && goodDict strict (n - 1) d
/-- Dictionary whose values satisfy `goodVal` at depth `n`, with distinct
keys. -/
def goodDict (strict : Bool) (n : Nat) : PyDict → Bool
  | .nil => true
  | .cons k v tl => goodVal strict n v && !keyMem k tl && goodDict strict n tl
end


/-! Validators of `ConfigUtils` and the interactive assembler `model_setup`. -/

/-- Calendar date (time-of-day is irrelevant to this program: all compared
values are midnight timestamps). -/
structure Date where
  y : Nat
  m : Nat
  d : Nat
deriving DecidableEq, Repr

/-- Lexicographic strict order on calendar dates. -/
def dateLtB (a b : Date) : Bool :=
  a.y < b.y ∨ (a.y = b.y ∧ (a.m < b.m ∨ (a.m = b.m ∧ a.d < b.d)))

/-- Split a character list on the date separators the model accepts. -/
def splitSepAux : List Char → List Char → List (List Char)
  | [], acc => [acc.reverse]
  | c :: rest, acc =>
    if c = '-' ∨ c = '/' then acc.reverse :: splitSepAux rest []
    else splitSepAux rest (c :: acc)

/-- Plausible month/day field pair (calendar simplified to 31-day months). -/
def validMD (m d : Nat) : Bool := 1 ≤ m ∧ m ≤ 12 ∧ 1 ≤ d ∧ d ≤ 31

/-- Model of the flexible parsing done by `pandas.to_datetime`: three numeric
fields separated by `-` or `/`; a four-digit first field reads as
`YYYY-MM-DD`, otherwise month-first `MM-DD-YYYY` with a day-first fallback
when the first field cannot be a month (dateutil's default behaviour). -/
def parseDateStr (s : String) : Option Date :=
  match splitSepAux (stripWS s.data) [] with
  | [a, b, c] =>
    if a ≠ [] ∧ b ≠ [] ∧ c ≠ [] ∧ a.all isDigitCh ∧ b.all isDigitCh ∧ c.all isDigitCh then
      if a.length = 4 then
        if validMD (parseNatDigits b) (parseNatDigits c) then
          some ⟨parseNatDigits a, parseNatDigits b, parseNatDigits c⟩
        else Option.none
      else if c.length = 4 then
        if validMD (parseNatDigits a) (parseNatDigits b) then
          some ⟨parseNatDigits c, parseNatDigits a, parseNatDigits b⟩
        else if validMD (parseNatDigits b) (parseNatDigits a) then
          some ⟨parseNatDigits c, parseNatDigits b, parseNatDigits a⟩
        else Option.none
      else Option.none
    else Option.none
  | _ => Option.none

/-- Result of `pd.to_datetime(s, errors="coerce")`: a timestamp, or `NaT` for
unparseable input (the call never raises for string input). -/
inductive PdDate where
  | NaT
  | ts (d : Date)
deriving DecidableEq, Repr

/-- The pandas parse with coercion to `NaT`. -/
def pd_to_datetime (s : String) : PdDate :=
  match parseDateStr s with
  | Option.none => PdDate.NaT
  | some d => PdDate.ts d

/-- Python `>` between pandas time values: every ordering comparison that
involves `NaT` is `False`. -/
def pdGt : PdDate → PdDate → Bool
  | .ts a, .ts b => dateLtB b a
  | _, _ => false

/-- Python `<=` between pandas time values, with the same `NaT` semantics
(used to state the date-range ordering property). -/
def pdLe : PdDate → PdDate → Bool
  | .ts a, .ts b => !dateLtB b a
  | _, _ => false

/-- `ConfigUtils.validate_date`: parse with pandas (`errors="coerce"`) and
reject with `None` only when the parsed value compares greater than now.
The `except` branch of the source is unreachable for string input because
`errors="coerce"` coerces failures to `NaT` instead of raising, so
unparseable text flows through the comparison (which is `False` for `NaT`)
and is returned as `NaT`. -/
def validate_date (now : Date) (date_str : String) : Option PdDate :=
  let date := pd_to_datetime date_str
  if pdGt date (PdDate.ts now) then Option.none else some date

/-- Truthiness of a `validate_date` result: `None` is falsy, while real
timestamps and `NaT` (instances of a `datetime` subclass) are truthy. -/
def pdTruthy : Option PdDate → Bool
  | Option.none => false
  | some _ => true

/-- `ConfigUtils.validate_integer`: `int(...)` with a lower bound of 0. -/
def validate_integer (integer_input : String) : Option Int :=
  match pyIntParse integer_input with
  | Option.none => Option.none
  | some value => if value < 0 then Option.none else some value

/-- `ConfigUtils.validate_float`: `float(...)` with a lower bound of 0. -/
def validate_float (float_input : String) : Option PyFloat :=
  match pyFloatParse float_input with
  | Option.none => Option.none
  | some value => if value.sig < 0 then Option.none else some value

/-- Python truthiness of an optional integer (`None` and `0` are falsy). -/
def intTruthy : Option Int → Bool
  | Option.none => false
  | some v => v ≠ 0

/-- Python truthiness of an optional float (`None` and `0.0` are falsy). -/
def floatTruthy : Option PyFloat → Bool
  | Option.none => false
  | some v => v.sig ≠ 0

/-- `model_setup.select_daterange` over the prompt stream: prompt for a start
date, restart on a falsy result, prompt for an end date, restart on a falsy
result or when `start > end`, otherwise return the pair and the remaining
stream. -/
def select_daterange (now : Date) : List String → Option ((PdDate × PdDate) × List String)
  | [] => Option.none
  | s :: rest =>
    match validate_date now s with
    | Option.none => select_daterange now rest
    | some sd =>
      match rest with
      | [] => Option.none
      | e :: rest2 =>
        match validate_date now e with
        | Option.none => select_daterange now rest2
        | some ed =>
          if pdGt sd ed then select_daterange now rest2
          else some ((sd, ed), rest2)

/-- The fixed global region table of `model_setup`. -/
def globalRegions : List String := ["AUS", "USA", "EUR", "JKN"]

/-- The fixed Australian local region table of `model_setup`. -/
def ausRegions : List String := ["NSW1", "QLD1", "VIC1", "SA1"]

/-- Result of `select_Region`: the global region and the optional local one. -/
structure RegionSel where
  glob : String
  loc : Option String
deriving DecidableEq, Repr

/-- Inner prompt loop of `select_Region` for the Australian local region. -/
def selectLocalRegion : List String → Option (String × List String)
  | [] => Option.none
  | s :: rest =>
    if ausRegions.contains (pyUpper s) then some (pyUpper s, rest)
    else selectLocalRegion rest

/-- `model_setup.select_Region`: upper-case the entry, re-prompt until it is
a member of the global region table, and for `AUS` run the local prompt. -/
def select_Region : List String → Option (RegionSel × List String)
  | [] => Option.none
  | s :: rest =>
    if globalRegions.contains (pyUpper s) then
      if pyUpper s = "AUS" then
        (selectLocalRegion rest).map (fun p => (⟨pyUpper s, some p.1⟩, p.2))
      else some (⟨pyUpper s, Option.none⟩, rest)
    else select_Region rest

/-- `model_setup.NEMOSIS_setup` with the stored Australian region. -/
def NEMOSIS_setup (ausRegion : Option String) : PyDict :=
  .cons "table" (.str "DISPATCHPRICE")
    (.cons "select_columns" (.list (.cons (.str "REGIONID") (.cons (.str "RRP") .nil)))
      (.cons "column_filter" (.str "REGIONID")
        (.cons "region_filter"
          (match ausRegion with
            | some j => PyVal.str j
            | Option.none => PyVal.none) .nil)))

/-- The `Plant_Details` section built by `Plant_config` from the six
validated inputs plus the fixed calendar constants. -/
def Plant_Details (size capex opex : Int) (avail eff : PyFloat) (life : Int) : PyDict :=
  .cons "Plant_Capacity" (.int size)
    (.cons "CAPEX" (.int capex)
      (.cons "OPEX" (.int opex)
        (.cons "Plant_Efficiency" (.float eff)
          (.cons "Availability" (.float avail)
            (.cons "Operating_Life_Years" (.int life)
              (.cons "Days_Per_Year" (.int 365)
                (.cons "Hours_Per_Day" (.int 24)
                  (.cons "_5_Min_Per_Hour" (.int 12) .nil))))))))

/-- The fixed `Methane_Pyrolysis` constants section. -/
def Methane_Pyrolysis : PyDict :=
  .cons "_H2_mole" (.float ⟨2016, 3⟩)
    (.cons "_C_mole" (.float ⟨12011, 3⟩)
      (.cons "_CH4_mole" (.float ⟨16042, 3⟩)
        (.cons "_Fe_per_tonne_Graphite" (.float ⟨2, 1⟩)
          (.cons "_MWh_per_tonne_Hydrogen" (.int 9)
            (.cons "_GJ_per_tonne_Graphite" (.int 86) .nil)))))

/-- The fixed `Hydrogen_Graphite_Market` constants section. -/
def Hydrogen_Graphite_Market : PyDict :=
  .cons "Mole_Fe2O3" (.float ⟨15969, 2⟩)
    (.cons "Mole_Fe" (.float ⟨5584, 2⟩)
      (.cons "Ratio_H2_mole_Fe2O3" (.int 3)
        (.cons "Ratio_Fe_mole_Fe2O3" (.int 2)
          (.cons "Graphite_per_kWh" (.float ⟨45, 2⟩)
            (.cons "kWh_per_EV" (.int 300)
              (.cons "kWh_per_BESS" (.int 1500) .nil))))))

/-- Concatenation of dictionaries with fresh keys (Python `dict.update`). -/
def pdAppend : PyDict → PyDict → PyDict
  | .nil, d2 => d2
  | .cons k v tl, d2 => .cons k v (pdAppend tl d2)

/-- The dict returned by `model_setup.Plant_config` on a successful batch. -/
def plantConfigDict (size capex opex : Int) (avail eff : PyFloat) (life : Int) : PyDict :=
  .cons "Plant_Details" (.dict (Plant_Details size capex opex avail eff life))
    (.cons "Methane_Pyrolysis" (.dict Methane_Pyrolysis)
      (.cons "Hydrogen_Graphite_Market" (.dict Hydrogen_Graphite_Market) .nil))

/-- `model_setup.Plant_config` over the prompt stream: every iteration runs
all six validators (consuming six prompts); the batch restarts from the first
prompt when any result is falsy (`None`, or a zero that passed its
validator); on success the three config sections are built. -/
def Plant_config : List String → Option (PyDict × List String)
  | i1 :: i2 :: i3 :: i4 :: i5 :: i6 :: rest =>
    match validate_integer i1, validate_integer i2, validate_integer i3,
        validate_float i4, validate_float i5, validate_integer i6 with
    | some size, some capex, some opex, some avail, some eff, some life =>
      if size ≠ 0 ∧ capex ≠ 0 ∧ opex ≠ 0 ∧ avail.sig ≠ 0 ∧ eff.sig ≠ 0 ∧ life ≠ 0 then
        some (plantConfigDict size capex opex avail eff life, rest)
      else Plant_config rest
    | _, _, _, _, _, _ => Plant_config rest
  | _ => Option.none

/-- The fixed `_NG_API` table of `model_setup`. -/
def NG_API_table : List (String × String) :=
  [("USA", "NG=F"), ("EUR", "TTF=F"), ("JKN", "JKN=F")]

/-- `model_setup.Natural_Gas_API`: look up the feed id for the stored global
region; a missing entry prints a warning and returns `{'NG_API': None}`.
The second component records whether the warning branch ran. -/
def Natural_Gas_API (globalRegion : String) : PyDict × Bool :=
  match NG_API_table.lookup globalRegion with
  | some api => (.cons "NG_API" (.str api) .nil, false)
  | Option.none => (.cons "NG_API" PyVal.none .nil, true)

/-- Zero-padded decimal rendering used by `strftime`. -/
def fmtPad (w n : Nat) : List Char :=
  List.replicate (w - (natDigitsChars n).length) '0' ++ natDigitsChars n

/-- The `strftime('%Y-%m-%d')` call on a pandas value; `NaT.strftime` raises
`ValueError`, modelled as `Option.none`. -/
def strftimeYMD : PdDate → Option String
  | .NaT => Option.none
  | .ts d => some ⟨fmtPad 4 d.y ++ '-' :: fmtPad 2 d.m ++ '-' :: fmtPad 2 d.d⟩

/-- The `config_data` dictionary as assembled by `create_config_file`:
`Timestamp` and `DateRange` first, then the three plant sections, then
`Regions` (whose entry gains `LocalRegion` when a local region was chosen),
`NG_API`, and `NEMOSISConfig` for a local-region run. -/
def assembleConfig (timestamp s1 s2 : String) (plant : PyDict) (reg : RegionSel) : PyDict :=
  pdAppend
    (.cons "Timestamp" (.str timestamp)
      (.cons "DateRange"
        (.dict (.cons "StartDate" (.str s1) (.cons "EndDate" (.str s2) .nil))) .nil))
    (pdAppend plant
      (.cons "Regions"
        (.dict (match reg.loc with
          | some j => .cons "GlobalRegion" (.str reg.glob) (.cons "LocalRegion" (.str j) .nil)
          | Option.none => .cons "GlobalRegion" (.str reg.glob) .nil))
        (.cons "NG_API" (.dict (Natural_Gas_API reg.glob).1)
          (match reg.loc with
            | some j => .cons "NEMOSISConfig" (.dict (NEMOSIS_setup (some j))) .nil
            | Option.none => .nil))))

/-- Outcome of one `create_config_file` run: normal return, a raised and
re-raised `ValueError` or `OSError`, or an interactive loop that never
finished because the prompt stream ran out. -/
inductive RunOutcome where
  | ok
  | valueError (msg : String)
  | osError (msg : String)
  | diverges
deriving DecidableEq, Repr

/-- A run's outcome together with the completed `dict_to_xml` writes
(filename and document root). -/
structure RunResult where
  outcome : RunOutcome
  writes : List (String × XElem)

/-- `model_setup.create_config_file` over the prompt stream.  `writeOk`
models whether the file write succeeds; on failure the raised exception is
wrapped as `OSError("Failed to save configuration to ...")`, reported and
re-raised.  The guards `if not date_range or None in date_range`,
`if not plant_config` and `if not region_info` of the source are dead code
under these subroutines: the date pair is truthy and `None`-free (`NaT` is
not `None` and `isinstance(NaT, datetime)` holds), and the two dicts are
never empty; the only live `ValueError` path is `strftime` on `NaT`. -/
def create_config_file (now : Date) (timestamp : String) (inputs : List String)
    (writeOk : Bool) (filename : String) : RunResult :=
  match select_daterange now inputs with
  | Option.none => ⟨.diverges, []⟩
  | some ((sd, ed), r1) =>
    match strftimeYMD sd, strftimeYMD ed with
    | some s1, some s2 =>
      match Plant_config r1 with
      | Option.none => ⟨.diverges, []⟩
      | some (plant, r2) =>
        match select_Region r2 with
        | Option.none => ⟨.diverges, []⟩
        | some (reg, _) =>
          if writeOk then
            ⟨.ok, [(filename, dict_to_xml (assembleConfig timestamp s1 s2 plant reg))]⟩
          else ⟨.osError ("Failed to save configuration to " ++ filename), []⟩
    | _, _ => ⟨.valueError "NaTType does not support strftime", []⟩


/-- Check whether a child list holds an element with the given tag. -/
def XList.hasTag (t : String) : XList → Bool
  | .nil => false
  | .cons e tl => e.tag = t ∨ XList.hasTag t tl

/-- First element with the given tag in a child list. -/
def XList.findTag (t : String) : XList → Option XElem
  | .nil => Option.none
  | .cons e tl => if e.tag = t then some e else XList.findTag t tl

/-- All sections `create_config_file` requires are present in a document. -/
def hasRequiredSections (doc : XElem) : Bool :=
  XList.hasTag "Timestamp" doc.children && XList.hasTag "DateRange" doc.children &&
  XList.hasTag "Plant_Details" doc.children && XList.hasTag "Methane_Pyrolysis" doc.children &&
  XList.hasTag "Hydrogen_Graphite_Market" doc.children &&
  XList.hasTag "Regions" doc.children && XList.hasTag "NG_API" doc.children

/-- Membership of a key/value pair in a dictionary. -/
def pdMemP (k : String) (v : PyVal) : PyDict → Prop
  | .nil => False
  | .cons k2 v2 tl => (k = k2 ∧ v = v2) ∨ pdMemP k v tl

mutual
/-- The transform decode-after-encode applies to one stored value: nonempty
dict values recurse, an empty dict or an empty rendering comes back as
`None`, and any other value is re-parsed from its `str` form. -/
def reEncVal : PyVal → PyVal
  | .dict (PyDict.cons k v tl) => PyVal.dict (reEncDict (PyDict.cons k v tl))
  | .dict PyDict.nil => PyVal.none
  | v => if pyStr v = "" then PyVal.none else parseLeafText (some (pyStr v))
/-- The decode-after-encode transform, mapped over a dictionary. -/
def reEncDict : PyDict → PyDict
  | .nil => .nil
  | .cons k v tl => .cons k (reEncVal v) (reEncDict tl)
end

/-- Prompt stream of one complete AUS run: a valid date range, one valid
plant parameter batch, and the AUS/NSW1 region pair. -/
def ausRunInputs : List String :=
  ["01-01-2023", "06-01-2023", "1000", "50", "10", "0.9", "0.8", "20", "aus", "nsw1"]

/-- The complete AUS run with a working destination file. -/
def ausRun : RunResult :=
  create_config_file ⟨2025, 10, 12⟩ "2025-10-12 09:00:00" ausRunInputs true "model_config.xml"

/-- Placeholder element for reading from an empty write list. -/
def emptyElem : XElem := .mk "" XList.nil Option.none


/-! Arithmetic facts about the digit printer and the parsers, used for the
round-trip law. -/

/-- Digit characters of values below 10 pass the digit test. -/
theorem digitChar_isDigit : ∀ d, d < 10 → isDigitCh (digitChar d) = true := by decide

/-- `charVal` inverts `digitChar` below 10. -/
theorem charVal_digitChar : ∀ d, d < 10 → charVal (digitChar d) = d := by decide

/-- Digit characters are not Python whitespace. -/
theorem isDigitCh_not_ws {c : Char} (h : isDigitCh c = true) : isPyWS c = false := by
  simp only [isDigitCh, decide_eq_true_eq] at h
  simp only [isPyWS, decide_eq_false_iff_not, not_or]
  refine ⟨?_, ?_, ?_, ?_, ?_, ?_⟩ <;> rintro rfl <;> simp at h

/-- Digit characters are not a sign, a dot or an exponent marker. -/
theorem isDigitCh_ne {c : Char} (h : isDigitCh c = true) :
    c ≠ '+' ∧ c ≠ '-' ∧ c ≠ '.' ∧ c ≠ 'e' ∧ c ≠ 'E' := by
  simp only [isDigitCh, decide_eq_true_eq] at h
  refine ⟨?_, ?_, ?_, ?_, ?_⟩ <;> rintro rfl <;> simp at h

/-- Value of a little-endian digit list. -/
def ofDigitsLE : List Nat → Nat
  | [] => 0
  | d :: tl => d + 10 * ofDigitsLE tl

/-- The fueled digit expansion evaluates back to its input. -/
theorem ofDigitsLE_natToDigitsAux : ∀ f n, n ≤ f → ofDigitsLE (natToDigitsAux f n) = n := by
  intro f
  induction f with
  | zero => intro n h; interval_cases n; simp [natToDigitsAux, ofDigitsLE]
  | succ f ih =>
    intro n h
    by_cases h0 : n = 0
    · simp [natToDigitsAux, h0, ofDigitsLE]
    · have hdiv : n / 10 ≤ f := by omega
      simp only [natToDigitsAux, h0, if_false, ofDigitsLE, ih _ hdiv]
      omega

/-- All digits produced by the fueled expansion are below 10. -/
theorem natToDigitsAux_lt10 : ∀ f n d, d ∈ natToDigitsAux f n → d < 10 := by
  intro f
  induction f with
  | zero => intro n d h; simp [natToDigitsAux] at h
  | succ f ih =>
    intro n d h
    by_cases h0 : n = 0
    · simp [natToDigitsAux, h0] at h
    · simp only [natToDigitsAux, h0, if_false, List.mem_cons] at h
      rcases h with h | h
      · omega
      · exact ih _ _ h

/-- Digit count bound: `n < 10 ^ k` yields at most `k` digits. -/
theorem natToDigitsAux_len_le : ∀ f n k, n < 10 ^ k → (natToDigitsAux f n).length ≤ k := by
  intro f
  induction f with
  | zero => intro n k _; simp [natToDigitsAux]
  | succ f ih =>
    intro n k h
    by_cases h0 : n = 0
    · simp [natToDigitsAux, h0]
    · have hk : k ≠ 0 := by
        rintro rfl; simp at h; omega
      have hdiv : n / 10 < 10 ^ (k - 1) := by
        have h10 : 10 ^ k = 10 ^ (k - 1) * 10 := by
          conv_lhs => rw [show k = (k - 1) + 1 by omega]
          ring
        omega
      simp only [natToDigitsAux, h0, if_false, List.length_cons]
      have := ih (n / 10) (k - 1) hdiv
      omega

/-- Parsing a most-significant-first digit rendering of a digit list
recovers the little-endian value. -/
theorem parseNat_rev_map : ∀ L : List Nat, (∀ d ∈ L, d < 10) →
    parseNatDigits ((L.map digitChar).reverse) = ofDigitsLE L := by
  intro L
  induction L with
  | nil => intro _; simp [parseNatDigits, ofDigitsLE]
  | cons d tl ih =>
    intro h
    have hd : d < 10 := h d (by simp)
    have htl := ih (fun x hx => h x (by simp [hx]))
    simp only [List.map_cons, List.reverse_cons, parseNatDigits, List.foldl_append,
      List.foldl_cons, List.foldl_nil] at htl ⊢
    rw [show (List.foldl (fun a c => 10 * a + charVal c) 0 (List.map digitChar tl).reverse)
      = ofDigitsLE tl from htl]
    rw [charVal_digitChar d hd]
    simp [ofDigitsLE]
    ring

/-- Parsing the digit characters of `n` recovers `n`. -/
theorem parseNat_natDigitsChars (n : Nat) : parseNatDigits (natDigitsChars n) = n := by
  unfold natDigitsChars natDigitsLE
  rw [parseNat_rev_map _ (fun d hd => natToDigitsAux_lt10 n n d hd)]
  exact ofDigitsLE_natToDigitsAux n n le_rfl

/-- Parsing `str(n)` recovers `n`. -/
theorem parseNat_natStrL (n : Nat) : parseNatDigits (natStrL n) = n := by
  unfold natStrL
  by_cases h : n = 0
  · simp [h, parseNatDigits, charVal]
  · rw [if_neg h, parseNat_natDigitsChars]

/-- All characters of `natDigitsChars` are digits. -/
theorem natDigitsChars_digits (n : Nat) : ∀ c ∈ natDigitsChars n, isDigitCh c = true := by
  intro c hc
  unfold natDigitsChars natDigitsLE at hc
  rw [List.mem_reverse, List.mem_map] at hc
  obtain ⟨d, hd, rfl⟩ := hc
  exact digitChar_isDigit d (natToDigitsAux_lt10 n n d hd)

/-- All characters of `str(n)` are digits. -/
theorem natStrL_digits (n : Nat) : ∀ c ∈ natStrL n, isDigitCh c = true := by
  intro c hc
  unfold natStrL at hc
  by_cases h : n = 0
  · simp [h] at hc; subst hc; decide
  · rw [if_neg h] at hc; exact natDigitsChars_digits n c hc

/-- Rendering of a nonzero number is nonempty, hence `str(n)` never is. -/
theorem natStrL_ne_nil (n : Nat) : natStrL n ≠ [] := by
  unfold natStrL
  by_cases h : n = 0
  · simp [h]
  · rw [if_neg h]
    intro hcon
    have := parseNat_natDigitsChars n
    rw [hcon] at this
    simp [parseNatDigits] at this
    omega

/-- Length of the digit rendering is bounded by the power of 10. -/
theorem natDigitsChars_len_le {n k : Nat} (h : n < 10 ^ k) :
    (natDigitsChars n).length ≤ k := by
  unfold natDigitsChars natDigitsLE
  simpa using natToDigitsAux_len_le n n k h

/-- A take-while over a list of satisfying characters followed by a failing
one returns exactly the prefix. -/
theorem takeWhile_append_stop {p : Char → Bool} {A B : List Char} {c : Char}
    (hA : ∀ a ∈ A, p a = true) (hc : p c = false) :
    (A ++ c :: B).takeWhile p = A := by
  induction A with
  | nil => simp [List.takeWhile_cons, hc]
  | cons a tl ih =>
    have ha : p a = true := hA a (by simp)
    simp only [List.cons_append, List.takeWhile_cons, ha, if_true]
    rw [ih (fun x hx => hA x (by simp [hx]))]

/-- Matching drop-while: the failing character and the tail remain. -/
theorem dropWhile_append_stop {p : Char → Bool} {A B : List Char} {c : Char}
    (hA : ∀ a ∈ A, p a = true) (hc : p c = false) :
    (A ++ c :: B).dropWhile p = c :: B := by
  induction A with
  | nil => simp [List.dropWhile_cons, hc]
  | cons a tl ih =>
    have ha : p a = true := hA a (by simp)
    simp only [List.cons_append, List.dropWhile_cons, ha, if_true]
    exact ih (fun x hx => hA x (by simp [hx]))

/-- A take-while over an all-satisfying list returns the whole list. -/
theorem takeWhile_all {p : Char → Bool} {A : List Char}
    (hA : ∀ a ∈ A, p a = true) : A.takeWhile p = A := by
  induction A with
  | nil => simp
  | cons a tl ih =>
    have ha : p a = true := hA a (by simp)
    simp only [List.takeWhile_cons, ha, if_true]
    rw [ih (fun x hx => hA x (by simp [hx]))]

/-- A drop-while over an all-satisfying list drops everything. -/
theorem dropWhile_all {p : Char → Bool} {A : List Char}
    (hA : ∀ a ∈ A, p a = true) : A.dropWhile p = [] := by
  induction A with
  | nil => simp
  | cons a tl ih =>
    have ha : p a = true := hA a (by simp)
    simp only [List.dropWhile_cons, ha, if_true]
    exact ih (fun x hx => hA x (by simp [hx]))

/-- A drop-while over a list with no satisfying characters is the identity. -/
theorem dropWhile_none {p : Char → Bool} {A : List Char}
    (hA : ∀ a ∈ A, p a = false) : A.dropWhile p = A := by
  cases A with
  | nil => simp
  | cons a tl => simp [List.dropWhile_cons, hA a (by simp)]

/-- Stripping whitespace from a whitespace-free list is the identity. -/
theorem stripWS_id {cs : List Char} (h : ∀ c ∈ cs, isPyWS c = false) :
    stripWS cs = cs := by
  unfold stripWS
  rw [dropWhile_none h, dropWhile_none (fun c hc => h c (List.mem_reverse.mp hc)),
    List.reverse_reverse]

/-- Leading zeros do not change the parsed value. -/
theorem parseNat_replicate_zero (z : Nat) (cs : List Char) :
    parseNatDigits (List.replicate z '0' ++ cs) = parseNatDigits cs := by
  induction z with
  | zero => simp
  | succ z ih =>
    simp only [List.replicate_succ, List.cons_append, parseNatDigits, List.foldl_cons] at ih ⊢
    have : (10 * 0 + charVal '0') = 0 := by decide
    rw [this]
    exact ih

/-- Trailing-zero stripping does nothing when the magnitude is not divisible
by 10 or the exponent is zero. -/
theorem stripTZ_noop {m e : Nat} (f : Nat) (h : e = 0 ∨ ¬ m % 10 = 0) :
    stripTZ f m e = (m, e) := by
  cases f with
  | zero => rfl
  | succ f =>
    rcases h with h | h
    · simp [stripTZ, h]
    · unfold stripTZ
      by_cases he : e = 0
      · simp [he]
      · simp [he, h]

/-- Projection of `spanDigits` to the prefix. -/
theorem spanDigits_fst (cs : List Char) : (spanDigits cs).1 = cs.takeWhile isDigitCh := rfl

/-- Projection of `spanDigits` to the remainder. -/
theorem spanDigits_snd (cs : List Char) : (spanDigits cs).2 = cs.dropWhile isDigitCh := rfl

/-- Recombining a sign bit with a magnitude recovers the integer. -/
theorem intOfSignB (s : Int) :
    (if decide (s < 0) = true then -((s.natAbs : Int)) else ((s.natAbs : Int))) = s := by
  by_cases hs : s < 0
  · rw [if_pos (by simpa using hs)]
    have h1 : (((-s).natAbs : Int)) = -s := Int.natAbs_of_nonneg (by omega)
    rw [Int.natAbs_neg] at h1
    omega
  · rw [if_neg (by simpa using hs)]
    exact Int.natAbs_of_nonneg (by omega)

/-- With a zero exponent, the parts combine to a shifted magnitude. -/
theorem floatOfParts_e0 (neg : Bool) (ipN fl fpN : Nat) :
    floatOfParts neg ipN fl fpN 0 = PyFloat.make neg (ipN * 10 ^ fl + fpN) fl := by
  unfold floatOfParts
  by_cases hfl : fl = 0
  · subst hfl
    norm_num
  · rw [if_neg (by omega)]
    congr 1
    omega

/-- Fuel-zero trailing-zero stripping is the identity. -/
theorem make_exp0 (neg : Bool) (m : Nat) :
    PyFloat.make neg m 0 = ⟨if neg then -(m : Int) else (m : Int), 0⟩ := rfl

/-- One shift of the magnitude strips back to the plain magnitude. -/
theorem make_mul10 (neg : Bool) (m : Nat) :
    PyFloat.make neg (m * 10 ^ 1 + 0) 1 = ⟨if neg then -(m : Int) else (m : Int), 0⟩ := by
  have hX : m * 10 ^ 1 + 0 = m * 10 := by ring
  unfold PyFloat.make
  rw [hX]
  have h : stripTZ 1 (m * 10) 1 = (m, 0) := by
    unfold stripTZ
    rw [if_neg (by norm_num), if_pos (Nat.mul_mod_left m 10)]
    have : m * 10 / 10 = m := Nat.mul_div_cancel m (by norm_num)
    simp [this, stripTZ]
  rw [h]

/-- Parsing the unsigned rendering of a whole number with its `.0` suffix. -/
theorem pyFloatCore_intBody (neg : Bool) (m : Nat) :
    pyFloatCore neg (natStrL m ++ ['.', '0']) =
      some ⟨if neg then -(m : Int) else (m : Int), 0⟩ := by
  have hdig := natStrL_digits m
  have hne := natStrL_ne_nil m
  have hdot : isDigitCh '.' = false := by decide
  have htake : (natStrL m ++ ['.', '0']).takeWhile isDigitCh = natStrL m :=
    takeWhile_append_stop hdig hdot
  have hdrop : (natStrL m ++ ['.', '0']).dropWhile isDigitCh = ['.', '0'] :=
    dropWhile_append_stop hdig hdot
  have htw0 : List.takeWhile isDigitCh ['0'] = ['0'] := by decide
  have hdw0 : List.dropWhile isDigitCh ['0'] = [] := by decide
  unfold pyFloatCore
  simp only [spanDigits_fst, spanDigits_snd, htake, hdrop, List.head?_cons, List.tail_cons,
    htw0, hdw0]
  simp only [if_true]
  rw [if_neg (by simp)]
  have hexp : parseExpSuffix [] = some 0 := rfl
  rw [hexp, Option.map_some', parseNat_natStrL]
  have hp0 : parseNatDigits ['0'] = 0 := by decide
  rw [hp0]
  have hlen : (['0'] : List Char).length = 1 := rfl
  rw [hlen, floatOfParts_e0, make_mul10]

/-- Parsing the unsigned fixed-point rendering of a fractional value. -/
theorem pyFloatCore_fracBody (neg : Bool) (m e : Nat)
    (hm : ¬ m % 10 = 0) :
    pyFloatCore neg
        (natStrL (m / 10 ^ e) ++
          '.' :: (List.replicate (e - (natDigitsChars (m % 10 ^ e)).length) '0'
                   ++ natDigitsChars (m % 10 ^ e))) =
      some ⟨if neg then -(m : Int) else (m : Int), e⟩ := by
  set q := m / 10 ^ e with hq
  set r := m % 10 ^ e with hr
  set pad := List.replicate (e - (natDigitsChars r).length) '0' ++ natDigitsChars r with hpad
  have hrlt : r < 10 ^ e := Nat.mod_lt _ (Nat.pos_pow_of_pos e (by norm_num))
  have hdlen : (natDigitsChars r).length ≤ e := natDigitsChars_len_le hrlt
  have hdigq := natStrL_digits q
  have hneq := natStrL_ne_nil q
  have hdot : isDigitCh '.' = false := by decide
  have hpaddig : ∀ c ∈ pad, isDigitCh c = true := by
    intro c hc
    rw [hpad, List.mem_append] at hc
    rcases hc with hc | hc
    · rw [List.eq_of_mem_replicate hc]; decide
    · exact natDigitsChars_digits r c hc
  have hpadlen : pad.length = e := by
    rw [hpad]
    simp only [List.length_append, List.length_replicate]
    omega
  have htake : (natStrL q ++ '.' :: pad).takeWhile isDigitCh = natStrL q :=
    takeWhile_append_stop hdigq hdot
  have hdrop : (natStrL q ++ '.' :: pad).dropWhile isDigitCh = '.' :: pad :=
    dropWhile_append_stop hdigq hdot
  unfold pyFloatCore
  simp only [spanDigits_fst, spanDigits_snd, htake, hdrop, List.head?_cons, List.tail_cons,
    takeWhile_all hpaddig, dropWhile_all hpaddig]
  simp only [if_true]
  rw [if_neg (by simp [hneq])]
  have hexp : parseExpSuffix [] = some 0 := rfl
  rw [hexp, Option.map_some', parseNat_natStrL, hpad, parseNat_replicate_zero,
    parseNat_natDigitsChars, ← hpad, hpadlen, floatOfParts_e0]
  have hbase : q * 10 ^ e + r = m := by
    rw [hq, hr, Nat.mul_comm]
    exact Nat.div_add_mod m (10 ^ e)
  rw [hbase]
  unfold PyFloat.make
  rw [stripTZ_noop e (Or.inr hm)]

/-- The printer output of a float contains no whitespace. -/
theorem pyFloatStrL_no_ws (x : PyFloat) : ∀ c ∈ pyFloatStrL x, isPyWS c = false := by
  intro c hc
  unfold pyFloatStrL at hc
  by_cases hexp : x.exp = 0
  · simp only [hexp, if_true, List.mem_append] at hc
    rcases hc with (hc | hc) | hc
    · by_cases hs : x.sig < 0
      · simp [hs] at hc; subst hc; decide
      · simp [hs] at hc
    · exact isDigitCh_not_ws (natStrL_digits _ c hc)
    · simp at hc; rcases hc with rfl | rfl <;> decide
  · simp only [hexp, if_false, List.mem_append, List.mem_cons] at hc
    rcases hc with (hc | hc) | hc | hc
    · by_cases hs : x.sig < 0
      · simp [hs] at hc; subst hc; decide
      · simp [hs] at hc
    · exact isDigitCh_not_ws (natStrL_digits _ c hc)
    · subst hc; decide
    · rcases hc with hc | hc
      · rw [List.eq_of_mem_replicate hc]; decide
      · exact isDigitCh_not_ws (natDigitsChars_digits _ c hc)

/-- Python `float(str(x))` recovers a canonical float `x` exactly. -/
theorem pyFloatParse_toStr (x : PyFloat) (h : x.canonical = true) :
    pyFloatParse x.toStr = some x := by
  have hbody : pyFloatCore (decide (x.sig < 0))
      (if x.exp = 0 then natStrL x.sig.natAbs ++ ['.', '0']
       else natStrL (x.sig.natAbs / 10 ^ x.exp) ++
         '.' :: (List.replicate (x.exp - (natDigitsChars (x.sig.natAbs % 10 ^ x.exp)).length) '0'
                  ++ natDigitsChars (x.sig.natAbs % 10 ^ x.exp))) = some x := by
    by_cases hexp : x.exp = 0
    · rw [if_pos hexp, pyFloatCore_intBody]
      cases x with
      | mk s e =>
        simp only at hexp
        subst hexp
        rw [intOfSignB]
    · rw [if_neg hexp]
      have hm : ¬ x.sig.natAbs % 10 = 0 := by
        unfold PyFloat.canonical at h
        simp only [decide_eq_true_eq] at h
        rcases h with h | h
        · exact absurd h hexp
        · exact h
      rw [pyFloatCore_fracBody _ _ _ hm]
      cases x with
      | mk s e => rw [intOfSignB]
  have hsplit : pyFloatStrL x =
      (if x.sig < 0 then ['-'] else []) ++
      (if x.exp = 0 then natStrL x.sig.natAbs ++ ['.', '0']
       else natStrL (x.sig.natAbs / 10 ^ x.exp) ++
         '.' :: (List.replicate (x.exp - (natDigitsChars (x.sig.natAbs % 10 ^ x.exp)).length) '0'
                  ++ natDigitsChars (x.sig.natAbs % 10 ^ x.exp))) := by
    unfold pyFloatStrL
    by_cases hexp : x.exp = 0 <;> by_cases hs : x.sig < 0 <;> simp [hexp, hs]
  have hdata : (PyFloat.toStr x).data = pyFloatStrL x := rfl
  unfold pyFloatParse
  rw [hdata, stripWS_id (pyFloatStrL_no_ws x), hsplit]
  by_cases hs : x.sig < 0
  · rw [if_pos hs]
    simp only [List.cons_append, List.nil_append, List.head?_cons, List.tail_cons]
    rw [if_neg (show ¬ ((some '-' : Option Char) = some '+') by decide)]
    rw [if_pos trivial]
    rw [show decide (x.sig < 0) = true by simp [hs]] at hbody
    exact hbody
  · rw [if_neg hs]
    simp only [List.nil_append]
    have hhead : ∃ c rest, (if x.exp = 0 then natStrL x.sig.natAbs ++ ['.', '0']
       else natStrL (x.sig.natAbs / 10 ^ x.exp) ++
         '.' :: (List.replicate (x.exp - (natDigitsChars (x.sig.natAbs % 10 ^ x.exp)).length) '0'
                  ++ natDigitsChars (x.sig.natAbs % 10 ^ x.exp))) = c :: rest
        ∧ isDigitCh c = true := by
      by_cases hexp : x.exp = 0
      · rw [if_pos hexp]
        obtain ⟨c, rest, hcr⟩ := List.exists_cons_of_ne_nil (natStrL_ne_nil x.sig.natAbs)
        exact ⟨c, rest ++ ['.', '0'], by rw [hcr]; simp,
          natStrL_digits _ c (by rw [hcr]; simp)⟩
      · rw [if_neg hexp]
        obtain ⟨c, rest, hcr⟩ :=
          List.exists_cons_of_ne_nil (natStrL_ne_nil (x.sig.natAbs / 10 ^ x.exp))
        exact ⟨c, rest ++ '.' :: (List.replicate
            (x.exp - (natDigitsChars (x.sig.natAbs % 10 ^ x.exp)).length) '0'
            ++ natDigitsChars (x.sig.natAbs % 10 ^ x.exp)),
          by rw [hcr]; simp, natStrL_digits _ c (by rw [hcr]; simp)⟩
    obtain ⟨c, rest, hcr, hcd⟩ := hhead
    rw [hcr]
    obtain ⟨hne1, hne2, _, _, _⟩ := isDigitCh_ne hcd
    simp only [List.head?_cons]
    rw [if_neg (by simp [hne1]), if_neg (by simp [hne2]), ← hcr]
    rw [show decide (x.sig < 0) = false by simp [hs]] at hbody
    exact hbody

/-- Parsing a bare digit run as a float yields the whole-valued float. -/
theorem pyFloatCore_digits (neg : Bool) (m : Nat) :
    pyFloatCore neg (natStrL m) = some ⟨if neg then -(m : Int) else (m : Int), 0⟩ := by
  have hdig := natStrL_digits m
  have hne := natStrL_ne_nil m
  unfold pyFloatCore
  simp only [spanDigits_fst, spanDigits_snd, takeWhile_all hdig, dropWhile_all hdig]
  rw [if_neg (by simp), if_neg hne]
  have hexp : parseExpSuffix [] = some 0 := rfl
  rw [hexp, Option.map_some', parseNat_natStrL, floatOfParts_e0]
  have : m * 10 ^ 0 + 0 = m := by ring
  rw [this, make_exp0]

/-- Python `float(str(n))` on an integer recovers the whole-valued float. -/
theorem pyFloatParse_pyStrInt (n : Int) : pyFloatParse (pyStrInt n) = some ⟨n, 0⟩ := by
  have hdata : (pyStrInt n).data = intStrL n := rfl
  have hnws : ∀ c ∈ intStrL n, isPyWS c = false := by
    intro c hc
    unfold intStrL at hc
    by_cases hs : n < 0
    · rw [if_pos hs] at hc
      rcases List.mem_cons.mp hc with rfl | hc
      · decide
      · exact isDigitCh_not_ws (natStrL_digits _ c hc)
    · rw [if_neg hs] at hc
      exact isDigitCh_not_ws (natStrL_digits _ c hc)
  unfold pyFloatParse
  rw [hdata, stripWS_id hnws]
  unfold intStrL
  by_cases hs : n < 0
  · rw [if_pos hs]
    simp only [List.head?_cons, List.tail_cons]
    rw [if_neg (show ¬ ((some '-' : Option Char) = some '+') by decide)]
    rw [if_pos trivial]
    rw [pyFloatCore_digits]
    rw [if_pos (rfl : (true : Bool) = true)]
    congr 2
    have h1 : (((-n).natAbs : Int)) = -n := Int.natAbs_of_nonneg (by omega)
    rw [Int.natAbs_neg] at h1
    omega
  · rw [if_neg hs]
    obtain ⟨c, rest, hcr⟩ := List.exists_cons_of_ne_nil (natStrL_ne_nil n.natAbs)
    have hcd : isDigitCh c = true := natStrL_digits _ c (by rw [hcr]; simp)
    obtain ⟨hne1, hne2, _, _, _⟩ := isDigitCh_ne hcd
    rw [hcr]
    simp only [List.head?_cons]
    rw [if_neg (by simp [hne1]), if_neg (by simp [hne2]), ← hcr, pyFloatCore_digits]
    rw [if_neg (by simp)]
    congr 2
    exact Int.natAbs_of_nonneg (by omega)

/-! Round-trip lemmas for the structure codec. -/

/-- The rendering of an integer is never the empty string. -/
theorem pyStrInt_ne_empty (n : Int) : pyStrInt n ≠ "" := by
  unfold pyStrInt
  intro hcon
  have hdata : intStrL n = [] := congrArg String.data hcon
  unfold intStrL at hdata
  by_cases hs : n < 0
  · rw [if_pos hs] at hdata; exact absurd hdata (by simp)
  · rw [if_neg hs] at hdata; exact absurd hdata (natStrL_ne_nil _)

/-- The rendering of a float is never the empty string. -/
theorem toStr_ne_empty (x : PyFloat) : x.toStr ≠ "" := by
  unfold PyFloat.toStr
  intro hcon
  have hdata : pyFloatStrL x = [] := congrArg String.data hcon
  unfold pyFloatStrL at hdata
  by_cases hexp : x.exp = 0 <;> by_cases hs : x.sig < 0 <;> simp [hexp, hs] at hdata

/-- Unfolding of `parseLeafText` at a present text. -/
theorem parseLeafText_some (t : String) :
    parseLeafText (some t) =
      (match pyFloatParse t with
        | some x => if x.exp = 0 then PyVal.int x.sig else PyVal.float x
        | Option.none => PyVal.str t) := rfl

/-- Decoding the text of an integer leaf recovers the integer. -/
theorem parseLeafText_int (n : Int) : parseLeafText (some (pyStrInt n)) = PyVal.int n := by
  rw [parseLeafText_some, pyFloatParse_pyStrInt]
  rfl

/-- Decoding the text of a canonical float leaf applies the whole-number
collapse. -/
theorem parseLeafText_float (x : PyFloat) (h : x.canonical = true) :
    parseLeafText (some x.toStr) = collapse (PyVal.float x) := by
  rw [parseLeafText_some, pyFloatParse_toStr x h]
  by_cases hexp : x.exp = 0 <;> simp [collapse, hexp]

/-- Elimination for a good string leaf. -/
theorem goodVal_str_elim {n : Nat} {s : String}
    (h : goodVal true n (PyVal.str s) = true) :
    pyFloatParse s = Option.none ∧ ¬ s = "" := by
  have h2 : ((pyFloatParse s).isNone && !(decide (s = ""))) = true := by
    simpa [goodVal] using h
  rw [Bool.and_eq_true] at h2
  refine ⟨Option.isNone_iff_eq_none.mp h2.1, ?_⟩
  simpa using h2.2

/-- Elimination for a good float leaf. -/
theorem goodVal_float_elim {n : Nat} {x : PyFloat}
    (h : goodVal true n (PyVal.float x) = true) : x.canonical = true := by
  simpa [goodVal] using h

/-- A `None` value is never good. -/
theorem goodVal_none_elim {n : Nat} (h : goodVal true n PyVal.none = true) : False := by
  simp [goodVal] at h

/-- A list value is never good. -/
theorem goodVal_list_elim {n : Nat} {xs : PyList}
    (h : goodVal true n (PyVal.list xs) = true) : False := by
  simp [goodVal] at h

/-- Elimination for a good nested dictionary. -/
theorem goodVal_dict_elim {n : Nat} {d : PyDict}
    (h : goodVal true n (PyVal.dict d) = true) :
    d.isNil = false ∧ goodDict true (n - 1) d = true := by
  simp only [goodVal, Bool.and_eq_true] at h
  constructor
  · have h1 : (!d.isNil) = true := by tauto
    simpa using h1
  · tauto

/-- Elimination for a good dictionary entry. -/
theorem goodDict_cons_elim {n : Nat} {k : String} {v : PyVal} {tl : PyDict}
    (h : goodDict true n (PyDict.cons k v tl) = true) :
    goodVal true n v = true ∧ goodDict true n tl = true := by
  simp only [goodDict, Bool.and_eq_true] at h
  tauto

mutual
/-- One encoded entry decodes to the collapsed pair, in front of any already
encoded sibling list. -/
theorem rt_entry (n : Nat) (k : String) (v : PyVal) (rest : XList)
    (h : goodVal true n v = true) :
    parseChildren (writeReadL (XList.cons (elementOf k v) rest)) =
      PyDict.cons k (collapse v) (parseChildren (writeReadL rest)) := by
  cases v with
  | str s =>
    obtain ⟨hnone, hne⟩ := goodVal_str_elim h
    show parseChildren (XList.cons (XElem.mk k (writeReadL XList.nil)
        (if (some (pyStr (PyVal.str s)) = some "") then Option.none
         else some (pyStr (PyVal.str s)))) (writeReadL rest)) = _
    rw [if_neg (by simp [pyStr, hne])]
    show PyDict.cons k (parseLeafText (some s)) (parseChildren (writeReadL rest)) = _
    rw [parseLeafText_some, hnone]
    rfl
  | int m =>
    show parseChildren (XList.cons (XElem.mk k (writeReadL XList.nil)
        (if (some (pyStr (PyVal.int m)) = some "") then Option.none
         else some (pyStr (PyVal.int m)))) (writeReadL rest)) = _
    rw [if_neg (by simp [pyStr, pyRepr]; exact pyStrInt_ne_empty m)]
    show PyDict.cons k (parseLeafText (some (pyStrInt m))) (parseChildren (writeReadL rest)) = _
    rw [parseLeafText_int]
    rfl
  | float x =>
    have hx : x.canonical = true := goodVal_float_elim h
    show parseChildren (XList.cons (XElem.mk k (writeReadL XList.nil)
        (if (some (pyStr (PyVal.float x)) = some "") then Option.none
         else some (pyStr (PyVal.float x)))) (writeReadL rest)) = _
    rw [if_neg (by simp [pyStr, pyRepr]; exact toStr_ne_empty x)]
    show PyDict.cons k (parseLeafText (some x.toStr)) (parseChildren (writeReadL rest)) = _
    rw [parseLeafText_float x hx]
  | none => exact absurd h (by simp [goodVal])
  | list xs => exact absurd h (by simp [goodVal])
  | dict d2 =>
    obtain ⟨hnil, hgood⟩ := goodVal_dict_elim h
    cases d2 with
    | nil => simp [PyDict.isNil] at hnil
    | cons k2 v2 tl2 =>
      show parseChildren (XList.cons (XElem.mk k
          (XList.cons (writeRead (elementOf k2 v2)) (writeReadL (add_elements tl2)))
          (if (Option.none : Option String) = some "" then Option.none else Option.none))
          (writeReadL rest)) = _
      show PyDict.cons k (PyVal.dict (parseChildren
          (XList.cons (writeRead (elementOf k2 v2)) (writeReadL (add_elements tl2)))))
          (parseChildren (writeReadL rest)) = _
      have hrec : parseChildren (writeReadL (add_elements (PyDict.cons k2 v2 tl2)))
          = collapseDict (PyDict.cons k2 v2 tl2) :=
        rt_dict (n - 1) (PyDict.cons k2 v2 tl2) hgood
      show PyDict.cons k (PyVal.dict (parseChildren
          (writeReadL (add_elements (PyDict.cons k2 v2 tl2)))))
          (parseChildren (writeReadL rest)) = _
      rw [hrec]
      rfl

/-- An encoded dictionary decodes to its collapse. -/
theorem rt_dict (n : Nat) (d : PyDict) (h : goodDict true n d = true) :
    parseChildren (writeReadL (add_elements d)) = collapseDict d := by
  cases d with
  | nil => rfl
  | cons k v tl =>
    obtain ⟨hv, htl⟩ := goodDict_cons_elim h
    show parseChildren (writeReadL (XList.cons (elementOf k v) (add_elements tl))) = _
    rw [rt_entry n k v (add_elements tl) hv, rt_dict n tl htl]
    rfl
end

/-- The round trip of a good dictionary: the whole input comes back under the
sentinel root key, with whole-valued floats collapsed to integers. -/
theorem roundTrip_good (n : Nat) (d : PyDict) (h : goodDict true n d = true) :
    roundTrip d = PyDict.cons "ModelConfiguration" (PyVal.dict (collapseDict d)) PyDict.nil := by
  unfold roundTrip dict_to_xml parse_root
  show PyDict.cons (XElem.tag (writeRead (XElem.mk "ModelConfiguration" (add_elements d) Option.none)))
      (PyVal.dict (recursive_parse (writeRead (XElem.mk "ModelConfiguration" (add_elements d) Option.none))))
      PyDict.nil = _
  show PyDict.cons "ModelConfiguration"
      (PyVal.dict (parseChildren (writeReadL (add_elements d)))) PyDict.nil = _
  rw [rt_dict n d h]

example : pyFloatParse "2.5" = some ⟨25, 1⟩ := by decide
example : pyFloatParse "100.0" = some ⟨100, 0⟩ := by decide
example : pyFloatParse "1e2" = some ⟨100, 0⟩ := by decide
example : pyFloatParse " -2.50 " = some ⟨-25, 1⟩ := by decide
example : pyFloatParse "abc" = Option.none := by decide
example : pyFloatParse "1" = some ⟨1, 0⟩ := by decide
example : pyFloatParse "2.5e-1" = some ⟨25, 2⟩ := by decide
example : pyIntParse "42" = some 42 := by decide
example : pyIntParse "-1" = some (-1) := by decide
example : pyIntParse "4.5" = Option.none := by decide
example : pyIntParse "abc" = Option.none := by decide
example : PyFloat.toStr ⟨25, 1⟩ = "2.5" := by decide
example : PyFloat.toStr ⟨-2016, 3⟩ = "-2.016" := by decide
example : PyFloat.toStr ⟨5, 0⟩ = "5.0" := by decide
example : PyFloat.toStr ⟨102, 2⟩ = "1.02" := by decide
example : pyStrInt (-42) = "-42" := by decide
example : pyUpper "aus" = "AUS" := by decide

example : roundTrip (.cons "a" (.str "1") .nil)
    = .cons "ModelConfiguration" (.dict (.cons "a" (.int 1) .nil)) .nil := rfl
example : roundTrip (.cons "a" (.str "") .nil)
    = .cons "ModelConfiguration" (.dict (.cons "a" PyVal.none .nil)) .nil := rfl
example : roundTrip (.cons "a" (.dict .nil) .nil)
    = .cons "ModelConfiguration" (.dict (.cons "a" PyVal.none .nil)) .nil := rfl
example : roundTrip (.cons "a" (.float ⟨25, 1⟩) (.cons "b" (.dict (.cons "c" (.int (-3)) .nil)) .nil))
    = .cons "ModelConfiguration"
        (.dict (.cons "a" (.float ⟨25, 1⟩) (.cons "b" (.dict (.cons "c" (.int (-3)) .nil)) .nil))) .nil := rfl
example : roundTrip (.cons "a" (.float ⟨40, 0⟩) .nil)
    = .cons "ModelConfiguration" (.dict (.cons "a" (.int 40) .nil)) .nil := rfl
example : pyStr (.list (.cons (.str "REGIONID") (.cons (.str "RRP") .nil)))
    = "['REGIONID', 'RRP']" := rfl
example : goodDict true 1 (.cons "a" (.dict (.cons "b" (.float ⟨25, 1⟩) .nil)) .nil) = true := rfl
example : validate_integer "42" = some 42 := by decide
example : validate_integer "-1" = Option.none := by decide
example : validate_integer "abc" = Option.none := by decide
example : validate_integer "0" = some 0 := by decide
example : validate_float "0.9" = some ⟨9, 1⟩ := by decide
example : validate_float "-0.5" = Option.none := by decide
example : parseDateStr "01-01-2030" = some ⟨2030, 1, 1⟩ := by decide
example : parseDateStr "2023-06-01" = some ⟨2023, 6, 1⟩ := by decide
example : parseDateStr "13-01-2023" = some ⟨2023, 1, 13⟩ := by decide
example : parseDateStr "abc" = Option.none := by decide
example : validate_date ⟨2025, 10, 12⟩ "01-01-2030" = Option.none := by decide
example : validate_date ⟨2025, 10, 12⟩ "01-01-2020" = some (PdDate.ts ⟨2020, 1, 1⟩) := by decide
example : validate_date ⟨2025, 10, 12⟩ "abc" = some PdDate.NaT := by decide
example : select_daterange ⟨2025, 10, 12⟩ ["10-01-2023", "01-01-2023", "01-01-2023", "06-01-2023"]
    = some ((PdDate.ts ⟨2023, 1, 1⟩, PdDate.ts ⟨2023, 6, 1⟩), []) := by decide
example : select_Region ["aus", "nsw1"] = some (⟨"AUS", some "NSW1"⟩, []) := by decide
example : select_Region ["usa"] = some (⟨"USA", Option.none⟩, []) := by decide
example : strftimeYMD (PdDate.ts ⟨2023, 6, 1⟩) = some "2023-06-01" := by decide

example : ausRun.outcome = RunOutcome.ok := by decide
example : ausRun.writes.length = 1 := by decide
example : XList.hasTag "NG_API" ((ausRun.writes.headD ("", emptyElem)).2.children) = true := by decide

/-- Leaf entries decode from their stored `str` text (empty text becomes an
absent text on re-parse, hence `None`). -/
theorem reEnc_leaf (k : String) (v : PyVal) (rest : XList)
    (hleaf : elementOf k v = XElem.mk k XList.nil (some (pyStr v))) :
    parseChildren (writeReadL (XList.cons (elementOf k v) rest)) =
      PyDict.cons k (if pyStr v = "" then PyVal.none else parseLeafText (some (pyStr v)))
        (parseChildren (writeReadL rest)) := by
  rw [hleaf]
  show parseChildren (XList.cons (XElem.mk k (writeReadL XList.nil)
      (if some (pyStr v) = some "" then Option.none else some (pyStr v)))
      (writeReadL rest)) = _
  by_cases hs : pyStr v = ""
  · rw [if_pos (by rw [hs]), if_pos hs]
    rfl
  · rw [if_neg (by simpa using hs), if_neg hs]
    rfl

mutual
/-- One encoded entry always decodes to the `reEncVal` of its value. -/
theorem reEnc_entry (k : String) (v : PyVal) (rest : XList) :
    parseChildren (writeReadL (XList.cons (elementOf k v) rest)) =
      PyDict.cons k (reEncVal v) (parseChildren (writeReadL rest)) := by
  cases v with
  | str s => exact reEnc_leaf k (PyVal.str s) rest rfl
  | int m => exact reEnc_leaf k (PyVal.int m) rest rfl
  | float x => exact reEnc_leaf k (PyVal.float x) rest rfl
  | none => exact reEnc_leaf k PyVal.none rest rfl
  | list xs => exact reEnc_leaf k (PyVal.list xs) rest rfl
  | dict d =>
    cases d with
    | nil => rfl
    | cons k2 v2 tl2 =>
      show PyDict.cons k (PyVal.dict (parseChildren
          (writeReadL (add_elements (PyDict.cons k2 v2 tl2)))))
          (parseChildren (writeReadL rest)) = _
      rw [reEnc_dict (PyDict.cons k2 v2 tl2)]
      rfl

/-- An encoded dictionary always decodes to its `reEncDict`. -/
theorem reEnc_dict (d : PyDict) :
    parseChildren (writeReadL (add_elements d)) = reEncDict d := by
  cases d with
  | nil => rfl
  | cons k v tl =>
    show parseChildren (writeReadL (XList.cons (elementOf k v) (add_elements tl))) = _
    rw [reEnc_entry k v (add_elements tl), reEnc_dict tl]
    rfl
end

/-- The full round trip in terms of `reEncDict`. -/
theorem roundTrip_reEnc (d : PyDict) :
    roundTrip d = PyDict.cons "ModelConfiguration" (PyVal.dict (reEncDict d)) PyDict.nil := by
  unfold roundTrip dict_to_xml parse_root
  show PyDict.cons "ModelConfiguration"
      (PyVal.dict (parseChildren (writeReadL (add_elements d)))) PyDict.nil = _
  rw [reEnc_dict d]

/-- A decoded leaf is never a list value. -/
theorem parseLeafText_not_list (t : Option String) (xs : PyList) :
    parseLeafText t ≠ PyVal.list xs := by
  cases t with
  | none => simp [parseLeafText]
  | some s =>
    rw [parseLeafText_some]
    cases hp : pyFloatParse s with
    | none => simp
    | some x => by_cases hexp : x.exp = 0 <;> simp [hexp]

/-- One iteration of the plant loop either succeeds with the fixed dict
shape or restarts on the remaining stream. -/
theorem Plant_config_step (i1 i2 i3 i4 i5 i6 : String) (rest : List String)
    (p : PyDict) (r : List String)
    (h : Plant_config (i1 :: i2 :: i3 :: i4 :: i5 :: i6 :: rest) = some (p, r)) :
    (∃ a b c d e f, p = plantConfigDict a b c d e f) ∨ Plant_config rest = some (p, r) := by
  unfold Plant_config at h
  cases h1 : validate_integer i1 with
  | none => rw [h1] at h; exact Or.inr h
  | some a =>
    rw [h1] at h
    cases h2 : validate_integer i2 with
    | none => rw [h2] at h; exact Or.inr h
    | some b =>
      rw [h2] at h
      cases h3 : validate_integer i3 with
      | none => rw [h3] at h; exact Or.inr h
      | some c =>
        rw [h3] at h
        cases h4 : validate_float i4 with
        | none => rw [h4] at h; exact Or.inr h
        | some d =>
          rw [h4] at h
          cases h5 : validate_float i5 with
          | none => rw [h5] at h; exact Or.inr h
          | some e =>
            rw [h5] at h
            cases h6 : validate_integer i6 with
            | none => rw [h6] at h; exact Or.inr h
            | some f =>
              rw [h6] at h
              have h7 : (if a ≠ 0 ∧ b ≠ 0 ∧ c ≠ 0 ∧ d.sig ≠ 0 ∧ e.sig ≠ 0 ∧ f ≠ 0 then
                  some (plantConfigDict a b c d e f, rest)
                else Plant_config rest) = some (p, r) := h
              by_cases hc : a ≠ 0 ∧ b ≠ 0 ∧ c ≠ 0 ∧ d.sig ≠ 0 ∧ e.sig ≠ 0 ∧ f ≠ 0
              · rw [if_pos hc] at h7
                injection h7 with h7
                exact Or.inl ⟨a, b, c, d, e, f, (congrArg Prod.fst h7).symm⟩
              · rw [if_neg hc] at h7
                exact Or.inr h7

/-- Whatever the stream, a successful plant loop returns the fixed dict
shape (bounded recursion on the stream length). -/
theorem Plant_config_shape_aux : ∀ (fuel : Nat) (inputs : List String),
    inputs.length ≤ fuel → ∀ (p : PyDict) (r : List String),
    Plant_config inputs = some (p, r) → ∃ a b c d e f, p = plantConfigDict a b c d e f := by
  intro fuel
  induction fuel with
  | zero =>
    intro inputs hlen p r h
    cases inputs with
    | nil => exact Option.noConfusion h
    | cons a tl => simp at hlen
  | succ N ih =>
    intro inputs hlen p r h
    cases inputs with
    | nil => exact Option.noConfusion h
    | cons i1 t1 =>
      cases t1 with
      | nil => exact Option.noConfusion h
      | cons i2 t2 =>
        cases t2 with
        | nil => exact Option.noConfusion h
        | cons i3 t3 =>
          cases t3 with
          | nil => exact Option.noConfusion h
          | cons i4 t4 =>
            cases t4 with
            | nil => exact Option.noConfusion h
            | cons i5 t5 =>
              cases t5 with
              | nil => exact Option.noConfusion h
              | cons i6 rest =>
                rcases Plant_config_step i1 i2 i3 i4 i5 i6 rest p r h with hs | hs
                · exact hs
                · have hr : rest.length ≤ N := by
                    simp at hlen
                    omega
                  exact ih rest hr p r hs

/-- Successful plant loops always return the fixed dict shape. -/
theorem Plant_config_shape (inputs : List String) (p : PyDict) (r : List String)
    (h : Plant_config inputs = some (p, r)) :
    ∃ a b c d e f, p = plantConfigDict a b c d e f :=
  Plant_config_shape_aux inputs.length inputs le_rfl p r h

/-- A region accepted by the selection loop is a member of the global
region table. -/
theorem select_Region_mem : ∀ (inputs : List String) (res : RegionSel) (rest2 : List String),
    select_Region inputs = some (res, rest2) → globalRegions.contains res.glob = true := by
  intro inputs
  induction inputs with
  | nil => intro res r2 h; exact Option.noConfusion h
  | cons s rest ih =>
    intro res r2 h
    unfold select_Region at h
    by_cases hg : globalRegions.contains (pyUpper s) = true
    · rw [if_pos hg] at h
      by_cases ha : pyUpper s = "AUS"
      · rw [if_pos ha] at h
        cases hl : selectLocalRegion rest with
        | none => rw [hl] at h; exact Option.noConfusion h
        | some pr =>
          rw [hl] at h
          simp only [Option.map_some', Option.some.injEq, Prod.mk.injEq] at h
          rw [← h.1]
          exact hg
      · rw [if_neg ha] at h
        simp only [Option.some.injEq, Prod.mk.injEq] at h
        rw [← h.1]
        exact hg
    · rw [if_neg hg] at h
      exact ih res r2 h

/-- C1 (counterexample): the round-trip claim as stated fails.  Three
mappings inside the claim's domain (depth at most 3, string/int/float
leaves) deviate beyond the two allowed deviations: a numeric-text string
leaf comes back as an integer, an empty string leaf comes back as `None`,
and an empty nested mapping comes back as `None`. -/
theorem C1_roundtrip_counterexample :
    (goodDict false 2 (PyDict.cons "a" (PyVal.str "1") PyDict.nil) = true ∧
      roundTrip (PyDict.cons "a" (PyVal.str "1") PyDict.nil) ≠
        PyDict.cons "ModelConfiguration"
          (PyVal.dict (collapseDict (PyDict.cons "a" (PyVal.str "1") PyDict.nil))) PyDict.nil) ∧
    (goodDict false 2 (PyDict.cons "a" (PyVal.str "") PyDict.nil) = true ∧
      roundTrip (PyDict.cons "a" (PyVal.str "") PyDict.nil) ≠
        PyDict.cons "ModelConfiguration"
          (PyVal.dict (collapseDict (PyDict.cons "a" (PyVal.str "") PyDict.nil))) PyDict.nil) ∧
    (goodDict false 2 (PyDict.cons "a" (PyVal.dict PyDict.nil) PyDict.nil) = true ∧
      roundTrip (PyDict.cons "a" (PyVal.dict PyDict.nil) PyDict.nil) ≠
        PyDict.cons "ModelConfiguration"
          (PyVal.dict (collapseDict (PyDict.cons "a" (PyVal.dict PyDict.nil) PyDict.nil)))
          PyDict.nil) := by
  refine ⟨⟨rfl, ?_⟩, ⟨rfl, ?_⟩, ⟨rfl, ?_⟩⟩
  · intro hcon
    have h2 : PyDict.cons "ModelConfiguration"
        (PyVal.dict (PyDict.cons "a" (PyVal.int 1) PyDict.nil)) PyDict.nil
        = PyDict.cons "ModelConfiguration"
          (PyVal.dict (PyDict.cons "a" (PyVal.str "1") PyDict.nil)) PyDict.nil := hcon
    simp at h2
  · intro hcon
    have h2 : PyDict.cons "ModelConfiguration"
        (PyVal.dict (PyDict.cons "a" PyVal.none PyDict.nil)) PyDict.nil
        = PyDict.cons "ModelConfiguration"
          (PyVal.dict (PyDict.cons "a" (PyVal.str "") PyDict.nil)) PyDict.nil := hcon
    simp at h2
  · intro hcon
    have h2 : PyDict.cons "ModelConfiguration"
        (PyVal.dict (PyDict.cons "a" PyVal.none PyDict.nil)) PyDict.nil
        = PyDict.cons "ModelConfiguration"
          (PyVal.dict (PyDict.cons "a" (PyVal.dict PyDict.nil) PyDict.nil)) PyDict.nil := hcon
    simp at h2

/-- C1 (amended): for every mapping of bounded depth whose leaves are
strings, ints or canonical floats, with distinct keys per level — provided
additionally that no string leaf parses as a float or is empty and no
nested mapping is empty — decoding the document produced by encoding
reproduces the mapping under the fixed sentinel root key
`ModelConfiguration`, with whole-valued float leaves collapsed to
integers and nothing else changed. -/
theorem C1_roundtrip_amended (n : Nat) (d : PyDict) (h : goodDict true n d = true) :
    roundTrip d = PyDict.cons "ModelConfiguration" (PyVal.dict (collapseDict d)) PyDict.nil :=
  roundTrip_good n d h

/-- C1 witness: a depth-3 mapping with int, float, whole-float and string
leaves round-trips as the amended claim states. -/
theorem C1_roundtrip_amended_witness :
    goodDict true 2 (PyDict.cons "Plant"
      (PyVal.dict (PyDict.cons "Capacity" (PyVal.int 1000)
        (PyDict.cons "Availability" (PyVal.float ⟨9, 1⟩) PyDict.nil)))
      (PyDict.cons "Label" (PyVal.str "methane")
        (PyDict.cons "Whole" (PyVal.float ⟨40, 0⟩) PyDict.nil))) = true ∧
    roundTrip (PyDict.cons "Plant"
      (PyVal.dict (PyDict.cons "Capacity" (PyVal.int 1000)
        (PyDict.cons "Availability" (PyVal.float ⟨9, 1⟩) PyDict.nil)))
      (PyDict.cons "Label" (PyVal.str "methane")
        (PyDict.cons "Whole" (PyVal.float ⟨40, 0⟩) PyDict.nil))) =
      PyDict.cons "ModelConfiguration"
        (PyVal.dict (collapseDict (PyDict.cons "Plant"
          (PyVal.dict (PyDict.cons "Capacity" (PyVal.int 1000)
            (PyDict.cons "Availability" (PyVal.float ⟨9, 1⟩) PyDict.nil)))
          (PyDict.cons "Label" (PyVal.str "methane")
            (PyDict.cons "Whole" (PyVal.float ⟨40, 0⟩) PyDict.nil))))) PyDict.nil :=
  ⟨rfl, C1_roundtrip_amended 2 _ rfl⟩

/-- C2: for a leaf child, the recursive parser stores under the child's tag
the result of attempting `float` on its text — an integer if the parse
succeeds with no fractional part, the float itself if it succeeds with a
fractional part, and the unchanged text string if it fails. -/
theorem C2_leaf_decode (ptag : String) (ptext : Option String) (tag : String)
    (t : String) (tl : XList) :
    recursive_parse (XElem.mk ptag (XList.cons (XElem.mk tag XList.nil (some t)) tl) ptext)
      = PyDict.cons tag (parseLeafText (some t)) (parseChildren tl) ∧
    (pyFloatParse t = Option.none → parseLeafText (some t) = PyVal.str t) ∧
    (∀ x : PyFloat, pyFloatParse t = some x → x.isInteger = true →
      parseLeafText (some t) = PyVal.int x.sig) ∧
    (∀ x : PyFloat, pyFloatParse t = some x → x.isInteger = false →
      parseLeafText (some t) = PyVal.float x) := by
  refine ⟨rfl, ?_, ?_, ?_⟩
  · intro hn
    rw [parseLeafText_some, hn]
  · intro x hx hi
    rw [parseLeafText_some, hx]
    simp only [PyFloat.isInteger, decide_eq_true_eq] at hi
    simp [hi]
  · intro x hx hi
    rw [parseLeafText_some, hx]
    simp only [PyFloat.isInteger, decide_eq_false_iff_not] at hi
    simp [hi]

/-- C2 witness: unparseable text stays a string, a whole-valued float text
becomes an integer, and a fractional float text stays a float. -/
theorem C2_leaf_decode_witness :
    parseLeafText (some "abc") = PyVal.str "abc" ∧
    parseLeafText (some "4.0") = PyVal.int 4 ∧
    parseLeafText (some "2.5") = PyVal.float ⟨25, 1⟩ :=
  ⟨(C2_leaf_decode "r" Option.none "k" "abc" XList.nil).2.1 (by decide),
   (C2_leaf_decode "r" Option.none "k" "4.0" XList.nil).2.2.1 ⟨4, 0⟩ (by decide) (by decide),
   (C2_leaf_decode "r" Option.none "k" "2.5" XList.nil).2.2.2 ⟨25, 1⟩ (by decide) (by decide)⟩

/-- C3: `validate_date` does not reject unparseable text.  With
`errors="coerce"`, `pd.to_datetime("abc")` is `NaT`, the `NaT > now`
comparison is `False`, and the function returns `NaT` — a truthy non-`None`
value — instead of the rejection the claim (and the function's own dead
`except` branch) promises.  Future dates are rejected and past dates are
accepted as claimed. -/
theorem C3_validate_date_nat :
    validate_date ⟨2025, 10, 12⟩ "abc" = some PdDate.NaT ∧
    some PdDate.NaT ≠ (Option.none : Option PdDate) ∧
    pdTruthy (some PdDate.NaT) = true ∧
    validate_date ⟨2025, 10, 12⟩ "01-01-2030" = Option.none ∧
    validate_date ⟨2025, 10, 12⟩ "01-01-2020" = some (PdDate.ts ⟨2020, 1, 1⟩) := by decide

/-- C4: `validate_integer` accepts exactly the strings that parse as an
integer at least 0, returning that integer, and rejects the rest with
`None`; the four documented cases behave as claimed. -/
theorem C4_validate_integer :
    (∀ (s : String) (n : Int),
      validate_integer s = some n ↔ (pyIntParse s = some n ∧ 0 ≤ n)) ∧
    validate_integer "42" = some 42 ∧ validate_integer "-1" = Option.none ∧
    validate_integer "abc" = Option.none ∧ validate_integer "0" = some 0 := by
  refine ⟨?_, by decide, by decide, by decide, by decide⟩
  intro s n
  unfold validate_integer
  cases hp : pyIntParse s with
  | none => simp
  | some v =>
    show (if v < 0 then Option.none else some v) = some n ↔ some v = some n ∧ 0 ≤ n
    by_cases hv : v < 0
    · rw [if_pos hv]
      constructor
      · intro hcon
        exact absurd hcon (by simp)
      · rintro ⟨h1, h2⟩
        injection h1 with h1
        omega
    · rw [if_neg hv]
      constructor
      · intro h1
        injection h1 with h1
        exact ⟨by rw [h1], by omega⟩
      · rintro ⟨h1, _⟩
        injection h1 with h1
        rw [h1]

/-- C5: the plant-parameter loop consumes all six prompts every iteration
regardless of which validators succeed; it restarts from the first field
whenever any field of the batch is falsy (rejected, or zero — zero passes
the validator but fails the batch truthiness check), and it returns exactly
when all six are non-rejected and nonzero. -/
theorem C5_plant_loop (i1 i2 i3 i4 i5 i6 : String) (rest : List String) :
    ((intTruthy (validate_integer i1) = false ∨ intTruthy (validate_integer i2) = false ∨
      intTruthy (validate_integer i3) = false ∨ floatTruthy (validate_float i4) = false ∨
      floatTruthy (validate_float i5) = false ∨ intTruthy (validate_integer i6) = false) →
      Plant_config (i1 :: i2 :: i3 :: i4 :: i5 :: i6 :: rest) = Plant_config rest) ∧
    (∀ (size capex opex : Int) (avail eff : PyFloat) (life : Int),
      validate_integer i1 = some size → validate_integer i2 = some capex →
      validate_integer i3 = some opex → validate_float i4 = some avail →
      validate_float i5 = some eff → validate_integer i6 = some life →
      size ≠ 0 → capex ≠ 0 → opex ≠ 0 → avail.sig ≠ 0 → eff.sig ≠ 0 → life ≠ 0 →
      Plant_config (i1 :: i2 :: i3 :: i4 :: i5 :: i6 :: rest)
        = some (plantConfigDict size capex opex avail eff life, rest)) ∧
    validate_integer "0" = some 0 ∧ intTruthy (validate_integer "0") = false := by
  refine ⟨?_, ?_, by decide, by decide⟩
  · intro hfalsy
    conv_lhs => unfold Plant_config
    cases h1 : validate_integer i1 with
    | none => rfl
    | some a =>
      cases h2 : validate_integer i2 with
      | none => rfl
      | some b =>
        cases h3 : validate_integer i3 with
        | none => rfl
        | some c =>
          cases h4 : validate_float i4 with
          | none => rfl
          | some d =>
            cases h5 : validate_float i5 with
            | none => rfl
            | some e =>
              cases h6 : validate_integer i6 with
              | none => rfl
              | some f =>
                show (if a ≠ 0 ∧ b ≠ 0 ∧ c ≠ 0 ∧ d.sig ≠ 0 ∧ e.sig ≠ 0 ∧ f ≠ 0 then
                    some (plantConfigDict a b c d e f, rest)
                  else Plant_config rest) = Plant_config rest
                have hng : ¬ (a ≠ 0 ∧ b ≠ 0 ∧ c ≠ 0 ∧ d.sig ≠ 0 ∧ e.sig ≠ 0 ∧ f ≠ 0) := by
                  rintro ⟨ha2, hb2, hc2, hd2, he2, hf2⟩
                  rcases hfalsy with hx | hx | hx | hx | hx | hx
                  · rw [h1] at hx; simp [intTruthy] at hx; exact ha2 hx
                  · rw [h2] at hx; simp [intTruthy] at hx; exact hb2 hx
                  · rw [h3] at hx; simp [intTruthy] at hx; exact hc2 hx
                  · rw [h4] at hx; simp [floatTruthy] at hx; exact hd2 hx
                  · rw [h5] at hx; simp [floatTruthy] at hx; exact he2 hx
                  · rw [h6] at hx; simp [intTruthy] at hx; exact hf2 hx
                rw [if_neg hng]
  · intro size capex opex avail eff life hs hc ho ha he hl hz1 hz2 hz3 hz4 hz5 hz6
    conv_lhs => unfold Plant_config
    rw [hs, hc, ho, ha, he, hl]
    show (if size ≠ 0 ∧ capex ≠ 0 ∧ opex ≠ 0 ∧ avail.sig ≠ 0 ∧ eff.sig ≠ 0 ∧ life ≠ 0 then
        some (plantConfigDict size capex opex avail eff life, rest)
      else Plant_config rest) = _
    rw [if_pos ⟨hz1, hz2, hz3, hz4, hz5, hz6⟩]

/-- C5 witness: a batch whose first entry is the accepted-but-falsy "0" is
retried from the first field (consuming all six prompts), and the following
fully valid batch succeeds. -/
theorem C5_plant_loop_witness :
    Plant_config ["0", "50", "10", "0.9", "0.8", "20",
        "1000", "50", "10", "0.9", "0.8", "20"]
      = some (plantConfigDict 1000 50 10 ⟨9, 1⟩ ⟨8, 1⟩ 20, []) ∧
    Plant_config ["1000", "50", "10", "0.9", "0.8", "20"]
      = some (plantConfigDict 1000 50 10 ⟨9, 1⟩ ⟨8, 1⟩ 20, []) := by
  have h1 := (C5_plant_loop "0" "50" "10" "0.9" "0.8" "20"
    ["1000", "50", "10", "0.9", "0.8", "20"]).1 (Or.inl (by decide))
  have h2 := (C5_plant_loop "1000" "50" "10" "0.9" "0.8" "20" []).2.1
    1000 50 10 ⟨9, 1⟩ ⟨8, 1⟩ 20 (by decide) (by decide) (by decide) (by decide)
    (by decide) (by decide) (by decide) (by decide) (by decide) (by decide)
    (by decide) (by decide)
  exact ⟨h1.trans h2, h2⟩

/-- C6: the date-range loop retries the whole pair when the start postdates
the end (returning the next valid pair), but because `validate_date` lets
`NaT` through as a truthy value, an unparseable start date produces a
returned pair whose start is `NaT` — and that pair does not satisfy
`start <= end`, contradicting the claim that the returned pair always
does. -/
theorem C6_daterange_nat :
    select_daterange ⟨2025, 10, 12⟩ ["abc", "01-01-2020"]
      = some ((PdDate.NaT, PdDate.ts ⟨2020, 1, 1⟩), []) ∧
    pdLe PdDate.NaT (PdDate.ts ⟨2020, 1, 1⟩) = false ∧
    select_daterange ⟨2025, 10, 12⟩ ["10-01-2023", "01-01-2023", "01-01-2023", "06-01-2023"]
      = some ((PdDate.ts ⟨2023, 1, 1⟩, PdDate.ts ⟨2023, 6, 1⟩), []) := by decide

/-- C7: region selection upper-cases the entry and accepts exactly the
members of {AUS, USA, EUR, JKN}, re-prompting otherwise; "aus" triggers the
local sub-prompt over {NSW1, QLD1, VIC1, SA1}, "usa" does not, and the USA
price-feed id resolves to NG=F. -/
theorem C7_region_selection (rest : List String) :
    select_Region ("aus" :: "nsw1" :: rest) = some (⟨"AUS", some "NSW1"⟩, rest) ∧
    select_Region ("usa" :: rest) = some (⟨"USA", Option.none⟩, rest) ∧
    (∀ s : String, globalRegions.contains (pyUpper s) = false →
      select_Region (s :: rest) = select_Region rest) ∧
    (∀ (inputs : List String) (res : RegionSel) (rest2 : List String),
      select_Region inputs = some (res, rest2) → globalRegions.contains res.glob = true) ∧
    (∀ s : String, ausRegions.contains (pyUpper s) = false →
      selectLocalRegion (s :: rest) = selectLocalRegion rest) ∧
    Natural_Gas_API "USA" = (PyDict.cons "NG_API" (PyVal.str "NG=F") PyDict.nil, false) := by
  refine ⟨rfl, rfl, ?_, select_Region_mem, ?_, rfl⟩
  · intro s hs
    conv_lhs => unfold select_Region
    rw [if_neg (by rw [hs]; exact Bool.false_ne_true)]
  · intro s hs
    conv_lhs => unfold selectLocalRegion
    rw [if_neg (by rw [hs]; exact Bool.false_ne_true)]

/-- C7 witness: the mixed-case entries, an invalid entry, and membership of
an accepted result in the fixed table. -/
theorem C7_region_selection_witness :
    select_Region ["aus", "nsw1"] = some (⟨"AUS", some "NSW1"⟩, []) ∧
    select_Region ["xyz", "usa"] = select_Region ["usa"] ∧
    globalRegions.contains (RegionSel.glob ⟨"USA", Option.none⟩) = true := by
  refine ⟨(C7_region_selection []).1, ?_, ?_⟩
  · exact (C7_region_selection ["usa"]).2.2.1 "xyz" (by decide)
  · exact (C7_region_selection []).2.2.2.1 ["usa"] ⟨"USA", Option.none⟩ []
      ((C7_region_selection []).2.1)

/-- C8 (counterexample): an AUS run succeeds with only a warning, but its
document does contain an `NG_API` element — the claim that an AUS document
has no external price-feed entry is false. -/
theorem C8_ng_api_counterexample :
    ausRun.outcome = RunOutcome.ok ∧
    ausRun.writes.length = 1 ∧
    XList.hasTag "NG_API" ((ausRun.writes.headD ("", emptyElem)).2.children) = true := by
  decide

/-- C8 (amended): the price-feed id is looked up from the fixed table
{USA: NG=F, EUR: TTF=F, JKN: JKN=F}; AUS has no entry, which only warns and
does not fail — and the AUS document then contains an `NG_API` entry whose
nested leaf holds the placeholder text `None` instead of a feed id. -/
theorem C8_ng_api_amended :
    NG_API_table.lookup "USA" = some "NG=F" ∧
    NG_API_table.lookup "EUR" = some "TTF=F" ∧
    NG_API_table.lookup "JKN" = some "JKN=F" ∧
    NG_API_table.lookup "AUS" = Option.none ∧
    Natural_Gas_API "AUS" = (PyDict.cons "NG_API" PyVal.none PyDict.nil, true) ∧
    ausRun.outcome = RunOutcome.ok ∧
    XList.findTag "NG_API" ((ausRun.writes.headD ("", emptyElem)).2.children)
      = some (XElem.mk "NG_API"
          (XList.cons (XElem.mk "NG_API" XList.nil (some "None")) XList.nil) Option.none) := by
  refine ⟨by decide, by decide, by decide, by decide, rfl, by decide, rfl⟩

/-- C9: a run never writes more than once; a write happens only with the
fully assembled record (all required sections present) and under the given
filename; `ValueError` aborts and diverging prompt streams end the run with
no write at all; and when the file write fails the raised error is wrapped
as `OSError("Failed to save configuration to ...")` and re-raised. -/
theorem C9_create_config (now : Date) (ts : String) (inputs : List String)
    (writeOk : Bool) (fn : String) :
    ((create_config_file now ts inputs writeOk fn).outcome = RunOutcome.ok →
      writeOk = true ∧ ∃ doc, (create_config_file now ts inputs writeOk fn).writes = [(fn, doc)]
        ∧ hasRequiredSections doc = true) ∧
    (∀ msg, (create_config_file now ts inputs writeOk fn).outcome = RunOutcome.valueError msg →
      (create_config_file now ts inputs writeOk fn).writes = []) ∧
    ((create_config_file now ts inputs writeOk fn).outcome = RunOutcome.diverges →
      (create_config_file now ts inputs writeOk fn).writes = []) ∧
    (create_config_file now ts inputs writeOk fn).writes.length ≤ 1 ∧
    (∀ (fn2 : String) (doc : XElem),
      (fn2, doc) ∈ (create_config_file now ts inputs writeOk fn).writes →
      fn2 = fn ∧ hasRequiredSections doc = true) ∧
    (writeOk = false →
      (create_config_file now ts inputs writeOk fn).writes = [] ∧
      ∀ o, o = (create_config_file now ts inputs writeOk fn).outcome →
        o = RunOutcome.osError ("Failed to save configuration to " ++ fn) ∨
        o = RunOutcome.valueError "NaTType does not support strftime" ∨
        o = RunOutcome.diverges) := by
  unfold create_config_file
  cases hdr : select_daterange now inputs with
  | none =>
    refine ⟨by simp, by simp, by simp, by simp, by simp, ?_⟩
    intro _
    exact ⟨rfl, fun o ho => Or.inr (Or.inr ho)⟩
  | some pr =>
    obtain ⟨⟨sd, ed⟩, r1⟩ := pr
    simp only []
    cases hs1 : strftimeYMD sd with
    | none =>
      cases hs2 : strftimeYMD ed with
      | none =>
        refine ⟨by simp, by simp, by simp, by simp, by simp, ?_⟩
        intro _
        exact ⟨rfl, fun o ho => Or.inr (Or.inl ho)⟩
      | some s2 =>
        refine ⟨by simp, by simp, by simp, by simp, by simp, ?_⟩
        intro _
        exact ⟨rfl, fun o ho => Or.inr (Or.inl ho)⟩
    | some s1 =>
      cases hs2 : strftimeYMD ed with
      | none =>
        refine ⟨by simp, by simp, by simp, by simp, by simp, ?_⟩
        intro _
        exact ⟨rfl, fun o ho => Or.inr (Or.inl ho)⟩
      | some s2 =>
        cases hpc : Plant_config r1 with
        | none =>
          refine ⟨by simp, by simp, by simp, by simp, by simp, ?_⟩
          intro _
          exact ⟨rfl, fun o ho => Or.inr (Or.inr ho)⟩
        | some pp =>
          obtain ⟨plant, r2⟩ := pp
          simp only []
          cases hsr : select_Region r2 with
          | none =>
            refine ⟨by simp, by simp, by simp, by simp, by simp, ?_⟩
            intro _
            exact ⟨rfl, fun o ho => Or.inr (Or.inr ho)⟩
          | some rp =>
            obtain ⟨reg, r3⟩ := rp
            simp only []
            obtain ⟨a, b, c, d, e, f, hplant⟩ := Plant_config_shape r1 plant r2 hpc
            subst hplant
            have hreq : hasRequiredSections
                (dict_to_xml (assembleConfig ts s1 s2
                  (plantConfigDict a b c d e f) reg)) = true := by
              cases hloc : reg.loc <;>
                simp [hasRequiredSections, dict_to_xml, assembleConfig, hloc, pdAppend,
                  plantConfigDict, Plant_Details, Methane_Pyrolysis, Hydrogen_Graphite_Market,
                  add_elements, elementOf, XElem.children, XElem.tag, XList.hasTag]
            cases writeOk with
            | true =>
              refine ⟨fun _ => ⟨rfl, _, rfl, hreq⟩, by simp, by simp, by simp, ?_, by simp⟩
              intro fn2 doc hmem
              rw [if_pos rfl] at hmem
              rw [List.mem_singleton] at hmem
              have h1 : fn2 = fn := congrArg Prod.fst hmem
              have h2 : doc = dict_to_xml (assembleConfig ts s1 s2
                  (plantConfigDict a b c d e f) reg) := congrArg Prod.snd hmem
              exact ⟨h1, by rw [h2]; exact hreq⟩
            | false =>
              refine ⟨by simp, by simp, by simp, by simp, by simp, ?_⟩
              intro _
              exact ⟨rfl, fun o ho => Or.inl ho⟩

/-- C9 witness: with a failing destination no write completes, and the full
AUS prompt stream with a working destination performs exactly one write of
a document holding every required section. -/
theorem C9_create_config_witness :
    (create_config_file ⟨2025, 10, 12⟩ "ts" ausRunInputs false "f.xml").writes = [] ∧
    ∃ doc, (create_config_file ⟨2025, 10, 12⟩ "ts" ausRunInputs true "f.xml").writes
        = [("f.xml", doc)] ∧ hasRequiredSections doc = true :=
  ⟨((C9_create_config ⟨2025, 10, 12⟩ "ts" ausRunInputs false "f.xml").2.2.2.2.2 rfl).1,
   ((C9_create_config ⟨2025, 10, 12⟩ "ts" ausRunInputs true "f.xml").1 (by decide)).2⟩

/-- A dictionary containing the NEMOSIS descriptor never equals its own
decode-after-encode image: the descriptor's column list comes back as its
printed string. -/
theorem reEncDict_ne_of_mem (r : String) : ∀ (entries : PyDict) (k : String),
    pdMemP k (PyVal.dict (NEMOSIS_setup (some r))) entries →
    reEncDict entries ≠ entries
  | PyDict.nil, _, hmem => False.elim hmem
  | PyDict.cons k2 v2 tl, k, hmem => fun hcon => by
    have hEq2 : PyDict.cons k2 (reEncVal v2) (reEncDict tl) = PyDict.cons k2 v2 tl := hcon
    injection hEq2 with hk hv htl
    rcases hmem with ⟨hkk, hvv⟩ | hmem2
    · rw [← hvv] at hv
      have hv2 : PyVal.dict (reEncDict (NEMOSIS_setup (some r)))
          = PyVal.dict (NEMOSIS_setup (some r)) := hv
      injection hv2 with hv2
      have hv3 : PyDict.cons "table" (reEncVal (PyVal.str "DISPATCHPRICE"))
          (PyDict.cons "select_columns"
            (reEncVal (PyVal.list (PyList.cons (PyVal.str "REGIONID")
              (PyList.cons (PyVal.str "RRP") PyList.nil))))
            (PyDict.cons "column_filter" (reEncVal (PyVal.str "REGIONID"))
              (PyDict.cons "region_filter" (reEncVal (PyVal.str r)) PyDict.nil)))
          = NEMOSIS_setup (some r) := hv2
      injection hv3 with hk1 hv1 ht1
      injection ht1 with hk2 hselect ht2
      have hbad : PyVal.str "['REGIONID', 'RRP']"
          = PyVal.list (PyList.cons (PyVal.str "REGIONID")
              (PyList.cons (PyVal.str "RRP") PyList.nil)) := hselect
      exact PyVal.noConfusion hbad
    · exact reEncDict_ne_of_mem r tl k hmem2 htl

/-- C10: encoding stores a non-dict, non-scalar value (the column list of
the NEMOSIS descriptor) as its Python `str` form in the leaf text; decoding
a leaf never returns a list; hence any configuration record containing the
NEMOSIS descriptor fails to round-trip, even under the sentinel root key. -/
theorem C10_list_leaf :
    (∀ (k : String) (xs : PyList),
      elementOf k (PyVal.list xs) = XElem.mk k XList.nil (some (pyStr (PyVal.list xs)))) ∧
    (∀ (t : Option String) (xs : PyList), parseLeafText t ≠ PyVal.list xs) ∧
    pyStr (PyVal.list (PyList.cons (PyVal.str "REGIONID")
      (PyList.cons (PyVal.str "RRP") PyList.nil))) = "['REGIONID', 'RRP']" ∧
    (∀ (r : String) (entries : PyDict) (k : String),
      pdMemP k (PyVal.dict (NEMOSIS_setup (some r))) entries →
      roundTrip entries ≠
        PyDict.cons "ModelConfiguration" (PyVal.dict entries) PyDict.nil) := by
  refine ⟨fun k xs => rfl, parseLeafText_not_list, by decide, ?_⟩
  intro r entries k hmem hcon
  rw [roundTrip_reEnc] at hcon
  have h2 : PyVal.dict (reEncDict entries) = PyVal.dict entries :=
    congrArg (fun d => match d with
      | PyDict.cons _ v _ => v
      | PyDict.nil => PyVal.dict entries) hcon
  have hEq : reEncDict entries = entries :=
    congrArg (fun v => match v with
      | PyVal.dict e => e
      | _ => entries) h2
  exact reEncDict_ne_of_mem r entries k hmem hEq

/-- C10 witness: the record holding just the NSW1 NEMOSIS descriptor does
not round-trip. -/
theorem C10_list_leaf_witness :
    pdMemP "NEMOSISConfig" (PyVal.dict (NEMOSIS_setup (some "NSW1")))
      (PyDict.cons "NEMOSISConfig" (PyVal.dict (NEMOSIS_setup (some "NSW1"))) PyDict.nil) ∧
    roundTrip (PyDict.cons "NEMOSISConfig"
        (PyVal.dict (NEMOSIS_setup (some "NSW1"))) PyDict.nil)
      ≠ PyDict.cons "ModelConfiguration"
          (PyVal.dict (PyDict.cons "NEMOSISConfig"
            (PyVal.dict (NEMOSIS_setup (some "NSW1"))) PyDict.nil)) PyDict.nil :=
  ⟨Or.inl ⟨rfl, rfl⟩,
   C10_list_leaf.2.2.2 "NSW1"
     (PyDict.cons "NEMOSISConfig" (PyVal.dict (NEMOSIS_setup (some "NSW1"))) PyDict.nil)
     "NEMOSISConfig" (Or.inl ⟨rfl, rfl⟩)⟩
